import Mathlib

/-! Verification of goschemaconverter: the declaration-to-model extractor
(`pkg/godmt/Parser.go`).

A shallow embedding of `ParseStruct`, `ParseStructField`, `ParseNestedStruct`,
`ParseComplexStructField` and `ParseConstantsAndVariables`, and of
`WriteResultToFile` (`internal/utils/FileUtils.go`).

* The `go/ast` nodes the functions read are finite trees.  In Go an identifier's
  `Obj.Decl` points back into the tree; here it is the declaration node itself,
  carried as a subtree of the identifier (the functions follow that pointer once,
  never around a cycle).
* A nil pointer, a nil interface value and a nil slice are `none`, `none` and `[]`.
* A run-time panic is `Except.error`; a returned value is `Except.ok`.
* Functions, constants and types of the package that are declared outside
  `Parser.go` are the fields of `Env`.
-/

namespace Godmt

/-! ## The `go/ast` nodes -/

/-- `ast.CommentGroup`: the texts of its comments. -/
structure CommentGroup where
  List : List String
deriving DecidableEq, Repr

/-- `ast.BasicLit`: the literal's token kind and its source text. -/
structure BasicLit where
  Kind : String
  Value : String
deriving DecidableEq, Repr

mutual
/-- `ast.Expr`.  An interface-typed child that the extractor switches on while
it may be nil is an `Option`.  Node kinds left out (`Ellipsis`, `FuncLit`,
`SliceExpr`, `TypeAssertExpr`) are matched by no `case` of the source, like
`BadExpr`. -/
inductive Expr where
  | BadExpr
  | Ident (id : Ident)
  | BasicLit (lit : BasicLit)
  | CompositeLit (Typ : Option Expr) (Elts : List Expr)
  | ParenExpr (X : Expr)
  | SelectorExpr (X : Expr) (Sel : Ident)
  | IndexExpr (X : Expr) (Index : Expr)
  | CallExpr (Fun : Expr) (Args : List Expr)
  | StarExpr (X : Expr)
  | UnaryExpr (Op : String) (X : Expr)
  | BinaryExpr (X : Expr) (Op : String) (Y : Expr)
  | KeyValueExpr (Key : Expr) (Value : Expr)
  | ArrayType (Len : Option Expr) (Elt : Expr)
  | StructType (Fields : Option (List Field))
  | FuncType (Params : Option (List Field)) (Results : Option (List Field))
  | InterfaceType (Methods : Option (List Field))
  | MapType (Key : Expr) (Value : Expr)
  | ChanType (Value : Expr)
/-- `ast.Ident`: `Name` and the resolved `Obj` (nil when unresolved). -/
inductive Ident where
  | mk (Name : String) (Obj : Option Object)
/-- `ast.Object`: `Name` and `Decl` (an `interface{}`, nil when absent). -/
inductive Object where
  | mk (Name : String) (Decl : Option Decl)
/-- What `Object.Decl` can point to: `*ast.Field`, `*ast.ImportSpec`,
`*ast.ValueSpec`, `*ast.TypeSpec`, `*ast.FuncDecl`, `*ast.LabeledStmt`,
`*ast.AssignStmt`, `*ast.Scope`.  The last three have none of the struct fields
`Type`, `Values`, `Tag`, `Doc` that the extractor looks up by name. -/
inductive Decl where
  | Field (f : Field)
  | ImportSpec (Doc : Option CommentGroup) (Name : Option Ident) (Path : BasicLit)
  | ValueSpec (Doc : Option CommentGroup) (Names : List Ident) (Typ : Option Expr)
      (Values : List Expr)
  | TypeSpec (Doc : Option CommentGroup) (Name : Ident) (Typ : Option Expr)
  | FuncDecl (Doc : Option CommentGroup) (Name : Ident) (Params : Option (List Field))
      (Results : Option (List Field))
  | LabeledStmt (Label : Ident)
  | AssignStmt (Lhs : List Expr) (Tok : String) (Rhs : List Expr)
  | Scope
/-- `ast.Field`: `Doc`, `Names`, `Type`, `Tag`. -/
inductive Field where
  | mk (Doc : Option CommentGroup) (Names : List Ident) (Typ : Option Expr)
      (Tag : Option BasicLit)
end

/-- `id.Name`. -/
def Ident.Name : Ident → String
  | .mk name _ => name

/-- `id.Obj`. -/
def Ident.Obj : Ident → Option Object
  | .mk _ obj => obj

/-- `obj.Decl`. -/
def Object.Decl : Object → Option Decl
  | .mk _ decl => decl

/-- `field.Doc`. -/
def Field.Doc : Field → Option CommentGroup
  | .mk doc _ _ _ => doc

/-- `field.Names`. -/
def Field.Names : Field → List Ident
  | .mk _ names _ _ => names

/-- `field.Type`. -/
def Field.Typ : Field → Option Expr
  | .mk _ _ typ _ => typ

/-- `field.Tag`. -/
def Field.Tag : Field → Option BasicLit
  | .mk _ _ _ tag => tag

/-- `reflect.ValueOf(decl).Elem().FieldByName("Type")`: `none` is the invalid
(zero) `reflect.Value` of a struct without that field; otherwise the value the
field holds, itself possibly nil.  `FuncDecl.Type` is a `*ast.FuncType`. -/
def Decl.fieldByNameType : Decl → Option (Option Expr)
  | .Field f => some f.Typ
  | .ValueSpec _ _ typ _ => some typ
  | .TypeSpec _ _ typ => some typ
  | .FuncDecl _ _ params results => some (some (.FuncType params results))
  | .ImportSpec _ _ _ => none
  | .LabeledStmt _ => none
  | .AssignStmt _ _ _ => none
  | .Scope => none

/-- `reflect.ValueOf(decl).Elem().FieldByName("Values")`; only `ast.ValueSpec`
has the field. -/
def Decl.fieldByNameValues : Decl → Option (List Expr)
  | .ValueSpec _ _ _ values => some values
  | _ => none

/-- `reflect.ValueOf(decl).Elem().FieldByName("Tag")`; only `ast.Field` has the
field. -/
def Decl.fieldByNameTag : Decl → Option (Option BasicLit)
  | .Field f => some f.Tag
  | _ => none

/-- `reflect.ValueOf(decl).Elem().FieldByName("Doc")`. -/
def Decl.fieldByNameDoc : Decl → Option (Option CommentGroup)
  | .Field f => some f.Doc
  | .ImportSpec doc _ _ => some doc
  | .ValueSpec doc _ _ _ => some doc
  | .TypeSpec doc _ _ => some doc
  | .FuncDecl doc _ _ _ => some doc
  | .LabeledStmt _ => none
  | .AssignStmt _ _ _ => none
  | .Scope => none

/-! ## The scanned model -/

/-- The run-time panics of the extractor. -/
inductive Panic where
  /-- A field read through a nil pointer. -/
  | nilDereference
  /-- The element `[0]` of an empty slice. -/
  | indexOutOfRange
  /-- The method `Elem` or `Interface` called on the zero `reflect.Value`. -/
  | reflectZeroValue
  /-- A panic raised inside a function declared outside `Parser.go`. -/
  | inHelper
deriving DecidableEq, Repr

/-- Modelled from the spec: the type of the `Doc` members is declared outside
`Parser.go`; section 3 calls it "optional attached comment text".  `none` is
Go's `nil`. -/
abbrev DocText := Option (List String)

/-- Modelled from the spec: `ImportedEntityDetails` is declared outside
`Parser.go`; section 3 gives "originating package/alias + type name". -/
structure ImportedEntityDetails where
  EntityName : String
  PackageName : String
deriving DecidableEq, Repr

/-- The struct `ScannedStructField`, with the members the composite literals of
`Parser.go` set (its declaration is outside `Parser.go`).  A member that a
literal leaves out has Go's zero value: `""`, `none`, `[]`, `0`, `false`. -/
structure ScannedStructField where
  Name : String
  Kind : String
  Tag : String
  Doc : DocText
  ImportDetails : Option ImportedEntityDetails
  SubFields : List ScannedStructField
  InternalType : Int
  IsPointer : Bool

/-- The struct `ScannedStruct`, with the members `ParseStruct` sets. -/
structure ScannedStruct where
  Doc : DocText
  Name : String
  Fields : List ScannedStructField
  InternalType : Int

/-- Modelled from the spec: the `Value` of a `ScannedType` is "literal text or
composite summary" (section 3); its Go type is declared outside `Parser.go`. -/
inductive ScannedValue where
  | text (s : String)
  | pairs (kvs : List (String × String))
  | items (xs : List String)
deriving DecidableEq, Repr

/-- Modelled from the spec: `ScannedType` is declared outside `Parser.go`;
section 3 lists `Name`, `Kind`, `Value`, `Doc`, `InternalType`. -/
structure ScannedType where
  Name : String
  Kind : String
  Value : ScannedValue
  Doc : DocText
  InternalType : Int
deriving DecidableEq, Repr

/-- The constants and functions of the package that `Parser.go` uses and that are
declared in other files.  A function that returns a pointer returns an `Option`;
every parser may panic.  `ExtractComments` only copies comment text and is
called with a nil group for every undocumented field, so it is total. -/
structure Env where
  StructType : Int
  VarType : Int
  SliceType : Int
  ExtractComments : Option CommentGroup → DocText
  SimpleStructFieldParser : Field → Except Panic (Option ScannedStructField)
  ImportedStructFieldParser : Field → Except Panic (Option ScannedStructField)
  GetSliceType : Expr → Except Panic String
  GetMapValueType : Expr → Except Panic String
  BasicTypeLiteralParser : Ident → BasicLit → Except Panic ScannedType
  IdentifierParser : Ident → Ident → Except Panic (Option ScannedType)
  CompositeLiteralMapParser : Ident → List Expr → Expr → Except Panic ScannedType
  CompositeLiteralSliceParser : Ident → String → Expr → Except Panic ScannedType

/-! ## `Parser.go` -/

/-- `ParseComplexStructField(item *ast.Ident) *ScannedStructField`.  The three
reflective lookups run before the type switch; `tag.Value` is read only when the
result literal is built, after `GetSliceType`. -/
def ParseComplexStructField (E : Env) (item : Ident) :
    Except Panic (Option ScannedStructField) :=
  match item.Obj with
  | none => .error .nilDereference
  | some obj =>
    match obj.Decl with
    | none => .error .reflectZeroValue
    | some decl =>
      match decl.fieldByNameTag with
      | none => .error .reflectZeroValue
      | some tag =>
        match decl.fieldByNameDoc with
        | none => .error .reflectZeroValue
        | some comments =>
          match decl.fieldByNameType with
          | none => .error .reflectZeroValue
          | some (some (.ArrayType len elt)) =>
            match E.GetSliceType (.ArrayType len elt) with
            | .error p => .error p
            | .ok kind =>
              match tag with
              | none => .error .nilDereference
              | some t =>
                .ok (some
                  { Name := item.Name
                    Kind := kind
                    Tag := t.Value
                    Doc := E.ExtractComments comments
                    ImportDetails := none
                    SubFields := []
                    InternalType := E.SliceType
                    IsPointer := false })
          | some _ => .ok none

mutual
/-- `ParseStructField(item *ast.Field) *ScannedStructField`. -/
def ParseStructField (E : Env) (item : Field) :
    Except Panic (Option ScannedStructField) :=
  match item.Typ with
  | some (.Ident _) => E.SimpleStructFieldParser item
  | some (.StructType _) => ParseNestedStruct E item
  | some (.SelectorExpr _ _) => E.ImportedStructFieldParser item
  | some (.MapType _ _) => E.SimpleStructFieldParser item
  | some (.ArrayType _ _) =>
    match item.Names with
    | [] => .error .indexOutOfRange
    | name :: _ => ParseComplexStructField E name
  | some (.StarExpr pointer) =>
    match pointer with
    | .Ident value =>
      match item.Names with
      | [] => .error .indexOutOfRange
      | name :: _ =>
        match item.Tag with
        | none => .error .nilDereference
        | some tag =>
          .ok (some
            { Doc := E.ExtractComments item.Doc
              Name := name.Name
              Kind := value.Name
              Tag := tag.Value
              InternalType := E.VarType
              IsPointer := true
              ImportDetails := none
              SubFields := [] })
    | _ => .ok none
  | _ => .ok none
termination_by (sizeOf item, 1)
decreasing_by
  all_goals exact Prod.Lex.right _ (by decide)

/-- `ParseNestedStruct(field *ast.Field) *ScannedStructField`.  The reflective
lookup of `Fields` panics on a type without that member; only `ast.StructType`
has it. -/
def ParseNestedStruct (E : Env) (field : Field) :
    Except Panic (Option ScannedStructField) :=
  match h : field.Typ with
  | some (.StructType none) => .error .nilDereference
  | some (.StructType (some list)) =>
    match ParseNestedStruct.loop E [] list with
    | .error p => .error p
    | .ok parsedNestedFields =>
      let tagValue : String :=
        match field.Tag with
        | some tag => tag.Value
        | none => ""
      match field.Names with
      | [] => .error .indexOutOfRange
      | name :: _ =>
        .ok (some
          { Name := name.Name
            Kind := "struct"
            Tag := tagValue
            Doc := E.ExtractComments field.Doc
            ImportDetails := none
            SubFields := parsedNestedFields
            InternalType := 0
            IsPointer := false })
  | _ => .error .reflectZeroValue
termination_by (sizeOf field, 0)
decreasing_by
  all_goals exact Prod.Lex.left _ _ (by
    cases field with
    | mk doc names typ tag =>
      simp only [Field.Typ] at h
      subst h
      simp_wf
      omega)

/-- The `for i := range nestedFields.List` loop of `ParseNestedStruct`, from the
fields still to visit and the slice built so far. -/
def ParseNestedStruct.loop (E : Env) (parsedNestedFields : List ScannedStructField)
    (rest : List Field) : Except Panic (List ScannedStructField) :=
  match rest with
  | [] => .ok parsedNestedFields
  | f :: fs =>
    match ParseStructField E f with
    | .error p => .error p
    | .ok none => ParseNestedStruct.loop E parsedNestedFields fs
    | .ok (some parsedField) =>
      ParseNestedStruct.loop E (parsedNestedFields ++ [parsedField]) fs
termination_by (sizeOf rest, 0)
decreasing_by
  all_goals exact Prod.Lex.left _ _ (by simp_wf <;> omega)
end

/-- The `for i := range fieldList` loop of `ParseStruct`, from the slice built so
far and the fields still to visit. -/
def ParseStruct.loop (E : Env) (rawScannedFields : List ScannedStructField)
    (rest : List Field) : Except Panic (List ScannedStructField) :=
  match rest with
  | [] => .ok rawScannedFields
  | f :: fs =>
    match ParseStructField E f with
    | .error p => .error p
    | .ok none => ParseStruct.loop E rawScannedFields fs
    | .ok (some parsed) => ParseStruct.loop E (rawScannedFields ++ [parsed]) fs

/-- `ParseStruct(d *ast.Ident) []ScannedStruct`. -/
def ParseStruct (E : Env) (d : Ident) : Except Panic (List ScannedStruct) :=
  match d.Obj with
  | none => .error .nilDereference
  | some obj =>
    match obj.Decl with
    | none => .error .reflectZeroValue
    | some decl =>
      match decl.fieldByNameType with
      | none => .ok []
      | some (some (.StructType fields)) =>
        match fields with
        | none => .error .nilDereference
        | some fieldList =>
          match ParseStruct.loop E [] fieldList with
          | .error p => .error p
          | .ok rawScannedFields =>
            .ok [{ Doc := none
                   Name := d.Name
                   Fields := rawScannedFields
                   InternalType := E.StructType }]
      | some _ => .ok []

/-- The body of the `for i := range values` loop of `ParseConstantsAndVariables`:
the entry the `switch` appends for one initializer, if any. -/
def ParseConstantsAndVariables.item (E : Env) (d : Ident) (value : Expr) :
    Except Panic (Option ScannedType) :=
  match value with
  | .BasicLit item =>
    match E.BasicTypeLiteralParser d item with
    | .error p => .error p
    | .ok parsed => .ok (some parsed)
  | .Ident item => E.IdentifierParser d item
  | .CompositeLit typ elts =>
    match typ with
    | some (.MapType _ _) =>
      match E.CompositeLiteralMapParser d elts (.CompositeLit typ elts) with
      | .error p => .error p
      | .ok parsed => .ok (some parsed)
    | some (.ArrayType _ elt) =>
      match E.GetMapValueType elt with
      | .error p => .error p
      | .ok sliceType =>
        match E.CompositeLiteralSliceParser d sliceType (.CompositeLit typ elts) with
        | .error p => .error p
        | .ok parsed => .ok (some parsed)
    | _ => .ok none
  | _ => .ok none

/-- The `for i := range values` loop of `ParseConstantsAndVariables`, from the
result built so far and the initializers still to visit. -/
def ParseConstantsAndVariables.loop (E : Env) (d : Ident) (result : List ScannedType)
    (rest : List Expr) : Except Panic (List ScannedType) :=
  match rest with
  | [] => .ok result
  | v :: vs =>
    match ParseConstantsAndVariables.item E d v with
    | .error p => .error p
    | .ok none => ParseConstantsAndVariables.loop E d result vs
    | .ok (some parsed) => ParseConstantsAndVariables.loop E d (result ++ [parsed]) vs

/-- `ParseConstantsAndVariables(d *ast.Ident) []ScannedType`. -/
def ParseConstantsAndVariables (E : Env) (d : Ident) : Except Panic (List ScannedType) :=
  match d.Obj with
  | none => .error .nilDereference
  | some obj =>
    match obj.Decl with
    | none => .error .reflectZeroValue
    | some decl =>
      match decl.fieldByNameValues with
      | none => .ok []
      | some values => ParseConstantsAndVariables.loop E d [] values

/-! ## A sample environment

The theorems below hold for every `Env`.  To evaluate the extractor on concrete
declarations the helpers need bodies; these follow the spec's description of them. -/

/-- Modelled from the spec: the text of a type "as written" (section 4.3), for
the type expressions the samples use; the printing helpers are declared outside
`Parser.go`. -/
def typeText : Expr → String
  | .Ident id => id.Name
  | .StarExpr x => "*" ++ typeText x
  | .ArrayType _ elt => "[]" ++ typeText elt
  | .MapType key value => "map[" ++ typeText key ++ "]" ++ typeText value
  | .SelectorExpr x sel => typeText x ++ "." ++ sel.Name
  | .BasicLit lit => lit.Value
  | _ => ""

/-- Modelled from the spec: `ExtractComments` is declared outside `Parser.go`;
"simple attachment" of the comment text (section 1). -/
def sampleExtractComments : Option CommentGroup → DocText
  | none => none
  | some group => some group.List

/-- The text of a field's tag, empty when the field has none. -/
def tagText : Option BasicLit → String
  | none => ""
  | some tag => tag.Value

/-- Modelled from the spec: `SimpleStructFieldParser` is declared outside
`Parser.go`; section 4.3: "`Kind` = the type's name as written; no further
resolution".  A field without a name gives no entry. -/
def sampleSimpleStructFieldParser (f : Field) : Except Panic (Option ScannedStructField) :=
  match f.Names, f.Typ with
  | name :: _, some typ =>
    .ok (some
      { Name := name.Name
        Kind := typeText typ
        Tag := tagText f.Tag
        Doc := sampleExtractComments f.Doc
        ImportDetails := none
        SubFields := []
        InternalType := 0
        IsPointer := false })
  | _, _ => .ok none

/-- Modelled from the spec: `ImportedStructFieldParser` is declared outside
`Parser.go`; section 4.3: "`Kind` = the referenced type name; `ImportDetails` =
package qualifier + type name". -/
def sampleImportedStructFieldParser (f : Field) : Except Panic (Option ScannedStructField) :=
  match f.Names, f.Typ with
  | name :: _, some (.SelectorExpr x sel) =>
    .ok (some
      { Name := name.Name
        Kind := sel.Name
        Tag := tagText f.Tag
        Doc := sampleExtractComments f.Doc
        ImportDetails := some { EntityName := sel.Name, PackageName := typeText x }
        SubFields := []
        InternalType := 0
        IsPointer := false })
  | _, _ => .ok none

/-- Modelled from the spec: `IdentifierParser` is declared outside `Parser.go`;
section 4.4: "resolve the identifier to its own declaration and build a
ScannedType from it; if unresolved, drop silently". -/
def sampleIdentifierParser (d : Ident) (item : Ident) : Except Panic (Option ScannedType) :=
  match item.Obj with
  | none => .ok none
  | some _ =>
    .ok (some
      { Name := d.Name, Kind := "", Value := .text item.Name, Doc := none, InternalType := 0 })

/-- Modelled from the spec: the key/value entries of a map literal, in source
order (section 4.4). -/
def keyValueTexts : List Expr → List (String × String)
  | [] => []
  | .KeyValueExpr key value :: rest => (typeText key, typeText value) :: keyValueTexts rest
  | _ :: rest => keyValueTexts rest

/-- Modelled from the spec: `CompositeLiteralMapParser` is declared outside
`Parser.go`; section 4.4: "enumerate all key/value entries of the literal into the
result's `Value` representation, preserving insertion order from the source".  It
is given the declaring identifier, the elements of the literal and the literal. -/
def specCompositeLiteralMapParser (d : Ident) (mapElements : List Expr) (_item : Expr) :
    Except Panic ScannedType :=
  .ok { Name := d.Name, Kind := "map", Value := .pairs (keyValueTexts mapElements),
        Doc := none, InternalType := 2 }

/-- Modelled from the spec: the helpers and constants declared outside
`Parser.go`, as sections 3 and 4 describe them.  The values of the three
`InternalType` constants are stand-ins; no theorem depends on them. -/
def sampleEnv : Env where
  StructType := 4
  VarType := 1
  SliceType := 3
  ExtractComments := sampleExtractComments
  SimpleStructFieldParser := sampleSimpleStructFieldParser
  ImportedStructFieldParser := sampleImportedStructFieldParser
  GetSliceType := fun arrayType => .ok (typeText arrayType)
  GetMapValueType := fun elt => .ok (typeText elt)
  BasicTypeLiteralParser := fun d item =>
    .ok { Name := d.Name, Kind := item.Kind, Value := .text item.Value, Doc := none,
          InternalType := 0 }
  IdentifierParser := sampleIdentifierParser
  CompositeLiteralMapParser := specCompositeLiteralMapParser
  CompositeLiteralSliceParser := fun d sliceType item =>
    .ok { Name := d.Name, Kind := sliceType,
          Value := .items (match item with
            | .CompositeLit _ elts => elts.map typeText
            | _ => []),
          Doc := none, InternalType := 3 }

/-! ## Vocabulary of the statements -/

/-- Whether `ParseStructField` returns on the field (a model or the empty
result) rather than panicking. -/
def completes (E : Env) (f : Field) : Bool :=
  match ParseStructField E f with
  | .ok _ => true
  | .error _ => false

/-- The non-empty result of `ParseStructField` on the field, if there is one. -/
def classified (E : Env) (f : Field) : Option ScannedStructField :=
  match ParseStructField E f with
  | .ok r => r
  | .error _ => none

/-- A classifiable field: `ParseStructField` returns a model for it. -/
def classifiable (E : Env) (f : Field) : Bool :=
  (classified E f).isSome

/-- A pointer to a map or to an array/slice. -/
def Expr.isPointerToMapOrArray : Expr → Bool
  | .StarExpr (.MapType _ _) => true
  | .StarExpr (.ArrayType _ _) => true
  | _ => false

/-- Whether `ParseConstantsAndVariables` gets past the initializer (with an entry
or without) rather than panicking. -/
def itemCompletes (E : Env) (d : Ident) (v : Expr) : Bool :=
  match ParseConstantsAndVariables.item E d v with
  | .ok _ => true
  | .error _ => false

/-- The entry `ParseConstantsAndVariables` emits for the initializer, if any. -/
def emitted (E : Env) (d : Ident) (v : Expr) : Option ScannedType :=
  match ParseConstantsAndVariables.item E d v with
  | .ok r => r
  | .error _ => none

/-- A type expression that is an identifier (`*ast.Ident`). -/
def Expr.isIdent : Expr → Bool
  | .Ident _ => true
  | _ => false

/-- A type expression matched by none of the six `case`s of the type switch of
`ParseStructField`. -/
def Expr.isUnsupportedFieldType : Expr → Bool
  | .Ident _ => false
  | .StructType _ => false
  | .SelectorExpr _ _ => false
  | .MapType _ _ => false
  | .ArrayType _ _ => false
  | .StarExpr _ => false
  | _ => true

/-- The shapes the spec lists as supported: simple named type, map type,
anonymous nested struct, package-qualified type, array/slice, pointer to a simple
named type. -/
def Expr.isSupportedFieldType : Expr → Bool
  | .Ident _ => true
  | .StructType _ => true
  | .SelectorExpr _ _ => true
  | .MapType _ _ => true
  | .ArrayType _ _ => true
  | .StarExpr (.Ident _) => true
  | _ => false

/-- The identifiers on which `ParseComplexStructField` returns: the identifier is
resolved to a field declaration and, when that declaration is array-typed, it
carries a tag and `GetSliceType` returns on its type. -/
def ComplexSafe (E : Env) (name : Ident) : Prop :=
  ∃ obj g, name.Obj = some obj ∧ obj.Decl = some (.Field g) ∧
    ∀ len elt, g.Typ = some (.ArrayType len elt) →
      (∃ t, g.Tag = some t) ∧ ∃ kind, E.GetSliceType (.ArrayType len elt) = .ok kind

/-- The fields on which `ParseStructField` returns, by the shape of the field:
a pointer-to-named-type field needs a name and a tag, an array/slice field a name
that `ParseComplexStructField` accepts, a nested struct field a name and a field
list made of such fields; on simple, map and imported fields the helper has to
return; every other shape is accepted. -/
inductive Safe (E : Env) : Field → Prop where
  | noType (doc names tag) : Safe E (.mk doc names none tag)
  | unsupported (doc names t tag) :
      t.isUnsupportedFieldType = true → Safe E (.mk doc names (some t) tag)
  | pointerToOther (doc names x tag) :
      x.isIdent = false → Safe E (.mk doc names (some (.StarExpr x)) tag)
  | pointer (doc name names value tag) :
      Safe E (.mk doc (name :: names) (some (.StarExpr (.Ident value))) (some tag))
  | simple (doc names id tag r) :
      E.SimpleStructFieldParser (.mk doc names (some (.Ident id)) tag) = .ok r →
      Safe E (.mk doc names (some (.Ident id)) tag)
  | map (doc names key value tag r) :
      E.SimpleStructFieldParser (.mk doc names (some (.MapType key value)) tag) = .ok r →
      Safe E (.mk doc names (some (.MapType key value)) tag)
  | imported (doc names x sel tag r) :
      E.ImportedStructFieldParser (.mk doc names (some (.SelectorExpr x sel)) tag) = .ok r →
      Safe E (.mk doc names (some (.SelectorExpr x sel)) tag)
  | nested (doc name names list tag) :
      (∀ g ∈ list, Safe E g) →
      Safe E (.mk doc (name :: names) (some (.StructType (some list))) tag)
  | array (doc name names len elt tag) :
      ComplexSafe E name →
      Safe E (.mk doc (name :: names) (some (.ArrayType len elt)) tag)

/-- The fields of a supported shape for which `ParseStructField` builds a model:
they have a name; a pointer-to-named-type field has a tag; the first name of an
array/slice field resolves to a tagged, array-typed field declaration on which
`GetSliceType` returns; the fields of a nested struct are `Safe`; on a simple, map
or imported field the helper returns a model. -/
inductive Supported (E : Env) : Field → Prop where
  | simple (doc names id tag e) :
      E.SimpleStructFieldParser (.mk doc names (some (.Ident id)) tag) = .ok (some e) →
      Supported E (.mk doc names (some (.Ident id)) tag)
  | map (doc names key value tag e) :
      E.SimpleStructFieldParser (.mk doc names (some (.MapType key value)) tag) =
        .ok (some e) →
      Supported E (.mk doc names (some (.MapType key value)) tag)
  | imported (doc names x sel tag e) :
      E.ImportedStructFieldParser (.mk doc names (some (.SelectorExpr x sel)) tag) =
        .ok (some e) →
      Supported E (.mk doc names (some (.SelectorExpr x sel)) tag)
  | pointer (doc name names value tag) :
      Supported E (.mk doc (name :: names) (some (.StarExpr (.Ident value))) (some tag))
  | nested (doc name names list tag) :
      (∀ g ∈ list, Safe E g) →
      Supported E (.mk doc (name :: names) (some (.StructType (some list))) tag)
  | array (doc name names len elt tag obj g l e t kind) :
      name.Obj = some obj → obj.Decl = some (.Field g) →
      g.Typ = some (.ArrayType l e) → g.Tag = some t →
      E.GetSliceType (.ArrayType l e) = .ok kind →
      Supported E (.mk doc (name :: names) (some (.ArrayType len elt)) tag)

/-- A type expression that is a struct type (`*ast.StructType`). -/
def Expr.isStructType : Expr → Bool
  | .StructType _ => true
  | _ => false

/-- An initializer that is none of: plain literal, bare identifier, composite
literal of a map type, composite literal of an array/slice type. -/
def Expr.isOtherInitializer : Expr → Bool
  | .BasicLit _ => false
  | .Ident _ => false
  | .CompositeLit (some (.MapType _ _)) _ => false
  | .CompositeLit (some (.ArrayType _ _)) _ => false
  | _ => true

/-- The entry built from one initializer of the declaration `d`: by
`BasicTypeLiteralParser` from a plain literal, by `IdentifierParser` from an
identifier that resolves, by `CompositeLiteralMapParser` from a map literal and
all its elements, by `CompositeLiteralSliceParser` from an array/slice literal and
the element kind `GetMapValueType` gives. -/
inductive Builds (E : Env) (d : Ident) : Expr → ScannedType → Prop where
  | literal (item e) :
      E.BasicTypeLiteralParser d item = .ok e → Builds E d (.BasicLit item) e
  | identifier (item e) :
      E.IdentifierParser d item = .ok (some e) → Builds E d (.Ident item) e
  | mapLiteral (key value elts e) :
      E.CompositeLiteralMapParser d elts (.CompositeLit (some (.MapType key value)) elts) =
        .ok e →
      Builds E d (.CompositeLit (some (.MapType key value)) elts) e
  | sliceLiteral (len elt elts sliceType e) :
      E.GetMapValueType elt = .ok sliceType →
      E.CompositeLiteralSliceParser d sliceType
        (.CompositeLit (some (.ArrayType len elt)) elts) = .ok e →
      Builds E d (.CompositeLit (some (.ArrayType len elt)) elts) e

/-- A bare-identifier initializer that does not resolve: `IdentifierParser`
returns nil for it. -/
def Unresolved (E : Env) (d : Ident) (v : Expr) : Prop :=
  ∃ item, v = .Ident item ∧ E.IdentifierParser d item = .ok none

/-- What one initializer contributes: `some e` when `e` is built from it, `none`
when it is a bare identifier that does not resolve. -/
def Contributes (E : Env) (d : Ident) (v : Expr) (r : Option ScannedType) : Prop :=
  match r with
  | some e => Builds E d v e
  | none => Unresolved E d v

/-! ## Sample declarations -/

/-- An unresolved identifier, such as the predeclared `int`. -/
def bareIdent (name : String) : Ident := .mk name none

/-- The type expression `name`. -/
def namedType (name : String) : Expr := .Ident (bareIdent name)

/-- The tag literal with text `text`. -/
def tagLit (text : String) : BasicLit := { Kind := "STRING", Value := text }

/-- The identifier `name`, resolved to the declaration `decl`. -/
def declared (name : String) (decl : Decl) : Ident := .mk name (some (.mk name (some decl)))

/-- The declaring identifier of `type name struct { fields }`. -/
def structDecl (name : String) (fields : List Field) : Ident :=
  declared name (.TypeSpec none (bareIdent name) (some (.StructType (some fields))))

/-- The field `name typ tag`, its name resolved to the field declaration, as the
Go parser resolves the names of struct fields. -/
def namedField (name : String) (typ : Expr) (tag : Option BasicLit) : Field :=
  .mk none [declared name (.Field (.mk none [bareIdent name] (some typ) tag))] (some typ) tag

/-- The field `X int`. -/
def fieldX : Field := namedField "X" (namedType "int") none

/-- The field `P *int` with the tag `json`. -/
def taggedPointerField : Field :=
  namedField "P" (.StarExpr (namedType "int")) (some (tagLit "json"))

/-- The field `P *int`, without a tag. -/
def untaggedPointerField : Field := namedField "P" (.StarExpr (namedType "int")) none

/-- The embedded field `*B` with the tag `json`: it has no names. -/
def embeddedPointerField : Field :=
  .mk none [] (some (.StarExpr (namedType "B"))) (some (tagLit "json"))

/-- The field `M *map[string]int`. -/
def pointerToMapField : Field :=
  namedField "M" (.StarExpr (.MapType (namedType "string") (namedType "int"))) none

/-- The field `A *[]int`. -/
def pointerToSliceField : Field :=
  namedField "A" (.StarExpr (.ArrayType none (namedType "int"))) none

/-- The field `F func()`. -/
def funcField : Field := namedField "F" (.FuncType (some []) none) none

/-- The field `S []string` with the tag `json`. -/
def taggedSliceField : Field :=
  namedField "S" (.ArrayType none (namedType "string")) (some (tagLit "json"))

/-- The field `In struct { X int; M *map[string]int; P *int "json" }`. -/
def nestedField : Field :=
  namedField "In" (.StructType (some [fieldX, pointerToMapField, taggedPointerField])) none

/-- The field `M map[string]int`. -/
def mapField : Field := namedField "M" (.MapType (namedType "string") (namedType "int")) none

/-- The field `T time.Time`. -/
def importedField : Field :=
  namedField "T" (.SelectorExpr (namedType "time") (bareIdent "Time")) none

/-- The field `In struct { *B "json" }`: a nested struct with an embedded pointer. -/
def nestedWithEmbeddedPointer : Field :=
  namedField "In" (.StructType (some [embeddedPointerField])) none

/-- The fields `X int; P *int "json"; In struct {...}; S []string "json";
M map[string]int; T time.Time`. -/
def supportedFields : List Field :=
  [fieldX, taggedPointerField, nestedField, taggedSliceField, mapField, importedField]

/-- The fields `X int; F func(); P *int "json"`. -/
def mixedFields : List Field := [fieldX, funcField, taggedPointerField]

/-- The entry of `X int` in the sample environment. -/
def entryX : ScannedStructField :=
  { Name := "X", Kind := "int", Tag := "", Doc := none, ImportDetails := none,
    SubFields := [], InternalType := 0, IsPointer := false }

/-- The entry of `P *int "json"` in the sample environment. -/
def entryP : ScannedStructField :=
  { Name := "P", Kind := "int", Tag := "json", Doc := none, ImportDetails := none,
    SubFields := [], InternalType := 1, IsPointer := true }

/-- The literal `1`. -/
def litOne : Expr := .BasicLit { Kind := "INT", Value := "1" }

/-- The literal `2`. -/
def litTwo : Expr := .BasicLit { Kind := "INT", Value := "2" }

/-- The identifier `x`, resolved to `const x = 2`. -/
def resolvedX : Ident := declared "x" (.ValueSpec none [bareIdent "x"] none [litTwo])

/-- The literal `map[string]int{a: 1, b: 2}`. -/
def mapLit : Expr :=
  .CompositeLit (some (.MapType (namedType "string") (namedType "int")))
    [.KeyValueExpr (namedType "a") litOne, .KeyValueExpr (namedType "b") litTwo]

/-- The literal `[]int{1, 2}`. -/
def sliceLit : Expr := .CompositeLit (some (.ArrayType none (namedType "int"))) [litOne, litTwo]

/-- The call `f()`. -/
def callExpr : Expr := .CallExpr (namedType "f") []

/-- The literal `T{}` of a named struct type. -/
def structLit : Expr := .CompositeLit (some (namedType "T")) []

/-- The declaring identifier `A` of a `var`/`const` specification with the given
initializer list. -/
def valueDecl (values : List Expr) : Ident :=
  declared "A" (.ValueSpec none [bareIdent "A"] none values)

/-- The declaring identifier of `var v struct { *B "json" }`. -/
def varWithEmbeddedPointer : Ident :=
  declared "v"
    (.ValueSpec none [bareIdent "v"] (some (.StructType (some [embeddedPointerField]))) [])

/-- An identifier whose object carries no declaration. -/
def undeclaredIdent : Ident := .mk "x" (some (.mk "x" none))

/-- The entry the sample environment builds for the literal `1` of `A`. -/
def entryOne : ScannedType :=
  { Name := "A", Kind := "INT", Value := .text "1", Doc := none, InternalType := 0 }

/-- The entry the sample environment builds for the literal `2` of `A`. -/
def entryTwo : ScannedType :=
  { Name := "A", Kind := "INT", Value := .text "2", Doc := none, InternalType := 0 }

/-- The entry the sample environment builds for the identifier `x` of `A`. -/
def entryIdentX : ScannedType :=
  { Name := "A", Kind := "", Value := .text "x", Doc := none, InternalType := 0 }

/-- The entry the sample environment builds for `mapLit`. -/
def entryMap : ScannedType :=
  { Name := "A", Kind := "map", Value := .pairs [("a", "1"), ("b", "2")], Doc := none,
    InternalType := 2 }

/-- The entry the sample environment builds for `sliceLit`. -/
def entrySlice : ScannedType :=
  { Name := "A", Kind := "int", Value := .items ["1", "2"], Doc := none, InternalType := 3 }

/-- An element `key: value` of a composite literal (`*ast.KeyValueExpr`). -/
def Expr.isKeyValueExpr : Expr → Bool
  | .KeyValueExpr _ _ => true
  | _ => false

/-- The text of the key of a `key: value` element. -/
def keyText : Expr → String
  | .KeyValueExpr key _ => typeText key
  | _ => ""

/-- The text of the value of a `key: value` element. -/
def valueText : Expr → String
  | .KeyValueExpr _ value => typeText value
  | _ => ""

/-- The declaring identifier of `var P *int`: a pointer-to-named type and no
initializer. -/
def varPointerDecl : Ident :=
  declared "P" (.ValueSpec none [bareIdent "P"] (some (.StarExpr (namedType "int"))) [])

/-- The declaring identifier of a documented `type T struct { X int }`, the
identifier carrying the same declaration. -/
def documentedStructDecl : Ident :=
  declared "T"
    (.TypeSpec (some { List := ["T is documented"] }) (bareIdent "T")
      (some (.StructType (some [fieldX]))))

/-! ## The walk with an explicit recursion budget -/

/-- The field loop of `ParseStruct` and `ParseNestedStruct` over a classifier
`step` that may run out of budget (`none`). -/
def walkLoop (step : Field → Option (Except Panic (Option ScannedStructField)))
    (acc : List ScannedStructField) :
    List Field → Option (Except Panic (List ScannedStructField))
  | [] => some (.ok acc)
  | f :: fs =>
    match step f with
    | none => none
    | some (.error p) => some (.error p)
    | some (.ok none) => walkLoop step acc fs
    | some (.ok (some parsed)) => walkLoop step (acc ++ [parsed]) fs

/-- `ParseNestedStruct` with its calls of `ParseStructField` replaced by `step`. -/
def ParseNestedStructWith (E : Env)
    (step : Field → Option (Except Panic (Option ScannedStructField))) (field : Field) :
    Option (Except Panic (Option ScannedStructField)) :=
  match field.Typ with
  | some (.StructType none) => some (.error .nilDereference)
  | some (.StructType (some list)) =>
    match walkLoop step [] list with
    | none => none
    | some (.error p) => some (.error p)
    | some (.ok parsedNestedFields) =>
      let tagValue : String :=
        match field.Tag with
        | some tag => tag.Value
        | none => ""
      match field.Names with
      | [] => some (.error .indexOutOfRange)
      | name :: _ =>
        some (.ok (some
          { Name := name.Name
            Kind := "struct"
            Tag := tagValue
            Doc := E.ExtractComments field.Doc
            ImportDetails := none
            SubFields := parsedNestedFields
            InternalType := 0
            IsPointer := false }))
  | _ => some (.error .reflectZeroValue)

/-- `ParseStructField` with a budget of nested calls: each call of
`ParseStructField` spends one unit, and the fields of a nested struct are walked
with what is left; `none` when the budget does not suffice. -/
def ParseStructFieldFuel (E : Env) :
    Nat → Field → Option (Except Panic (Option ScannedStructField))
  | 0, _ => none
  | n + 1, item =>
    match item.Typ with
    | some (.Ident _) => some (E.SimpleStructFieldParser item)
    | some (.StructType _) => ParseNestedStructWith E (ParseStructFieldFuel E n) item
    | some (.SelectorExpr _ _) => some (E.ImportedStructFieldParser item)
    | some (.MapType _ _) => some (E.SimpleStructFieldParser item)
    | some (.ArrayType _ _) =>
      match item.Names with
      | [] => some (.error .indexOutOfRange)
      | name :: _ => some (ParseComplexStructField E name)
    | some (.StarExpr pointer) =>
      match pointer with
      | .Ident value =>
        match item.Names with
        | [] => some (.error .indexOutOfRange)
        | name :: _ =>
          match item.Tag with
          | none => some (.error .nilDereference)
          | some tag =>
            some (.ok (some
              { Doc := E.ExtractComments item.Doc
                Name := name.Name
                Kind := value.Name
                Tag := tag.Value
                InternalType := E.VarType
                IsPointer := true
                ImportDetails := none
                SubFields := [] }))
      | _ => some (.ok none)
    | _ => some (.ok none)

/-- The shapes whose entry is named after `Names[0]` in `Parser.go`: pointer to
a named type, array/slice, anonymous nested struct. -/
def Expr.isFirstNameShape : Expr → Bool
  | .StarExpr (.Ident _) => true
  | .ArrayType _ _ => true
  | .StructType _ => true
  | _ => false

/-- The field `S []string`, without a tag. -/
def untaggedSliceField : Field := namedField "S" (.ArrayType none (namedType "string")) none

/-- The field declaration `X, Y *int "json"`: two names, one type. -/
def twoNamePointerField : Field :=
  .mk none
    [declared "X" (.Field (.mk none [bareIdent "X", bareIdent "Y"]
        (some (.StarExpr (namedType "int"))) (some (tagLit "json")))),
     declared "Y" (.Field (.mk none [bareIdent "X", bareIdent "Y"]
        (some (.StarExpr (namedType "int"))) (some (tagLit "json"))))]
    (some (.StarExpr (namedType "int"))) (some (tagLit "json"))

/-- The field declaration `A, B []string "json"`: two names, one slice type, the
first name resolved to the declaration. -/
def twoNameSliceField : Field :=
  .mk none
    [declared "A" (.Field (.mk none [bareIdent "A", bareIdent "B"]
        (some (.ArrayType none (namedType "string"))) (some (tagLit "json")))),
     bareIdent "B"]
    (some (.ArrayType none (namedType "string"))) (some (tagLit "json"))

/-- The field declaration `P, Q struct { *B "json" }`: two names, a nested struct
with an embedded pointer. -/
def twoNameNestedField : Field :=
  .mk none [bareIdent "P", bareIdent "Q"] (some (.StructType (some [embeddedPointerField])))
    none

/-! ## `internal/utils/FileUtils.go`

The file system is a state `World`; the calls of package `os` are the fields of
`Os`, each returning the error (nil is `none`) and the next state.  What
`fmt.Println` prints is collected in `printed`. -/

/-- An `error` returned by package `os`: `os.ErrExist`, or any other. -/
inductive OsError where
  | ErrExist
  | other (text : String)
deriving DecidableEq, Repr

/-- `err.Error()`. -/
def OsError.Error : OsError → String
  | .ErrExist => "file exists"
  | .other text => text

/-- The calls of package `os` that `WriteResultToFile` makes: `os.PathSeparator`,
`os.Mkdir(name, perm)`, `os.Create(name)`, `f.WriteString(s)` and `f.Close()` on
the file `name`. -/
structure Os (World : Type) where
  PathSeparator : String
  Mkdir : String → Nat → World → Option OsError × World
  Create : String → World → Option OsError × World
  WriteString : String → String → World → Option OsError × World
  Close : String → World → World

/-- `correctSplitPackageLength = 3`. -/
def correctSplitPackageLength : Nat := 3

/-- `correctFolderPermissions = 0744`. -/
def correctFolderPermissions : Nat := 0o744

/-- What a call leaves behind: the file system and the lines printed. -/
structure Run (World : Type) where
  world : World
  printed : List String

/-- Lines 32 to 44 of `WriteResultToFile`: create the file, write the text, close
the file (the deferred `f.Close()`), printing the error of a failed `Create` or
`WriteString`. -/
def WriteResultToFile.write {World : Type} (os : Os World) (result filename : String)
    (w : World) : Run World :=
  match os.Create filename w with
  | (some err, w1) => { world := w1, printed := [err.Error] }
  | (none, w1) =>
    match os.WriteString filename result w1 with
    | (some err, w2) => { world := os.Close filename w2, printed := [err.Error] }
    | (none, w2) => { world := os.Close filename w2, printed := [] }

/-- `WriteResultToFile(result, filename string, packageDeclaration []string)`.
The error of `os.Mkdir` is assigned to `_`; `packageDeclaration[1]` is read only
when the length is 3, where it exists. -/
def WriteResultToFile {World : Type} (os : Os World) (result filename : String)
    (packageDeclaration : List String) (w : World) : Run World :=
  let w1 :=
    if packageDeclaration.length = correctSplitPackageLength then
      (os.Mkdir
        ("." ++ os.PathSeparator ++ "result" ++ os.PathSeparator ++
          packageDeclaration.getD 1 "")
        correctFolderPermissions w).2
    else w
  WriteResultToFile.write os result filename w1

/-- A file system for the samples: the folders and the files with their text. -/
structure Disk where
  dirs : List String
  files : List (String × String)
deriving DecidableEq, Repr

/-- A sample operating system: `Mkdir` fails with `ErrExist` on an existing
folder and with another error when the results root `./result` is missing;
`Create` succeeds and leaves the file empty, truncating one that exists;
`WriteString` succeeds and extends the text of the file. -/
def sampleOs : Os Disk where
  PathSeparator := "/"
  Mkdir := fun path _ w =>
    if path ∈ w.dirs then (some .ErrExist, w)
    else if "./result" ∈ w.dirs then (none, { w with dirs := w.dirs ++ [path] })
    else (some (.other "no such file or directory"), w)
  Create := fun name w =>
    (none, { w with files := w.files.filter (fun file => file.1 != name) ++ [(name, "")] })
  WriteString := fun name text w =>
    (none, { w with files := w.files.map (fun file =>
      if file.1 = name then (file.1, file.2 ++ text) else file) })
  Close := fun _ w => w

/-- A file system that holds the results root only. -/
def diskWithRoot : Disk := { dirs := ["./result"], files := [] }

/-- An empty file system: the results root is missing. -/
def emptyDisk : Disk := { dirs := [], files := [] }

/-! ## Theorems -/

theorem completes_iff (E : Env) (f : Field) :
    completes E f = true ↔ ∃ r, ParseStructField E f = .ok r := by
  unfold completes
  cases h : ParseStructField E f <;> simp

theorem classified_of_ok {E : Env} {f : Field} {r : Option ScannedStructField}
    (h : ParseStructField E f = .ok r) : classified E f = r := by
  simp [classified, h]

theorem structLoop_ok (E : Env) (fl : List Field) :
    ∀ acc, (∀ f ∈ fl, completes E f = true) →
      ParseStruct.loop E acc fl = .ok (acc ++ fl.filterMap (classified E)) := by
  induction fl with
  | nil => intro acc _; simp [ParseStruct.loop]
  | cons f fs ih =>
    intro acc h
    have hf : completes E f = true := h f (List.mem_cons_self _ _)
    have hfs : ∀ g ∈ fs, completes E g = true := fun g hg => h g (List.mem_cons_of_mem _ hg)
    obtain ⟨r, hr⟩ := (completes_iff E f).1 hf
    cases r with
    | none => simp [ParseStruct.loop, hr, classified, ih acc hfs]
    | some e => simp [ParseStruct.loop, hr, classified, ih (acc ++ [e]) hfs]

theorem structLoop_completes (E : Env) (fl : List Field) :
    ∀ acc xs, ParseStruct.loop E acc fl = .ok xs → ∀ f ∈ fl, completes E f = true := by
  induction fl with
  | nil => intro _ _ _ f hf; cases hf
  | cons g gs ih =>
    intro acc xs h f hf
    unfold ParseStruct.loop at h
    cases hg : ParseStructField E g with
    | error p => simp [hg] at h
    | ok r =>
      rcases List.mem_cons.1 hf with rfl | hmem
      · simp [completes, hg]
      · cases r with
        | none => simp only [hg] at h; exact ih _ _ h f hmem
        | some e => simp only [hg] at h; exact ih _ _ h f hmem

theorem nestedLoop_ok (E : Env) (fl : List Field) :
    ∀ acc, (∀ f ∈ fl, completes E f = true) →
      ParseNestedStruct.loop E acc fl = .ok (acc ++ fl.filterMap (classified E)) := by
  induction fl with
  | nil => intro acc _; simp [ParseNestedStruct.loop]
  | cons f fs ih =>
    intro acc h
    have hf : completes E f = true := h f (List.mem_cons_self _ _)
    have hfs : ∀ g ∈ fs, completes E g = true := fun g hg => h g (List.mem_cons_of_mem _ hg)
    obtain ⟨r, hr⟩ := (completes_iff E f).1 hf
    cases r with
    | none => simp [ParseNestedStruct.loop, hr, classified, ih acc hfs]
    | some e => simp [ParseNestedStruct.loop, hr, classified, ih (acc ++ [e]) hfs]

theorem nestedLoop_completes (E : Env) (fl : List Field) :
    ∀ acc xs, ParseNestedStruct.loop E acc fl = .ok xs → ∀ f ∈ fl, completes E f = true := by
  induction fl with
  | nil => intro _ _ _ f hf; cases hf
  | cons g gs ih =>
    intro acc xs h f hf
    rw [ParseNestedStruct.loop] at h
    cases hg : ParseStructField E g with
    | error p => simp [hg] at h
    | ok r =>
      rcases List.mem_cons.1 hf with rfl | hmem
      · simp [completes, hg]
      · cases r with
        | none => simp only [hg] at h; exact ih _ _ h f hmem
        | some e => simp only [hg] at h; exact ih _ _ h f hmem

theorem filterMap_classified_length (E : Env) (fl : List Field) :
    (fl.filterMap (classified E)).length = fl.countP (classifiable E) := by
  induction fl with
  | nil => rfl
  | cons f fs ih =>
    cases h : classified E f with
    | none => simp [List.filterMap_cons, h, classifiable, ih]
    | some e => simp [List.filterMap_cons, h, classifiable, ih]

theorem ParseStruct_of_struct (E : Env) (d : Ident) (obj : Object) (decl : Decl)
    (fl : List Field) (hObj : d.Obj = some obj) (hDecl : obj.Decl = some decl)
    (hTyp : decl.fieldByNameType = some (some (.StructType (some fl)))) :
    ParseStruct E d =
      match ParseStruct.loop E [] fl with
      | .error p => .error p
      | .ok xs => .ok [{ Doc := none, Name := d.Name, Fields := xs,
                         InternalType := E.StructType }] := by
  simp [ParseStruct, hObj, hDecl, hTyp]

theorem ParseStruct_of_completes (E : Env) (d : Ident) (obj : Object) (decl : Decl)
    (fl : List Field) (hObj : d.Obj = some obj) (hDecl : obj.Decl = some decl)
    (hTyp : decl.fieldByNameType = some (some (.StructType (some fl))))
    (hfl : ∀ f ∈ fl, completes E f = true) :
    ParseStruct E d =
      .ok [{ Doc := none, Name := d.Name, Fields := fl.filterMap (classified E),
             InternalType := E.StructType }] := by
  rw [ParseStruct_of_struct E d obj decl fl hObj hDecl hTyp,
    structLoop_ok E fl [] hfl]
  simp

/-- C2, as amended: for a struct declaration on every field of which
`ParseStructField` returns (a model or the empty result), `ParseStruct` returns
one `ScannedStruct` whose `Fields` are exactly the non-empty results of
`ParseStructField` on the source fields, in declaration order, so that a field
with the empty result leaves no entry and the fields after it are still
processed; and whenever `ParseStruct` returns, what it returns is that one
`ScannedStruct`, the length of its `Fields` being the number of classifiable
source fields. -/
theorem C2_fields_are_nonempty_classifier_results (E : Env) (d : Ident) (obj : Object)
    (decl : Decl) (fl : List Field) (hObj : d.Obj = some obj) (hDecl : obj.Decl = some decl)
    (hTyp : decl.fieldByNameType = some (some (.StructType (some fl)))) :
    ((∀ f ∈ fl, completes E f = true) →
      ParseStruct E d =
        .ok [{ Doc := none, Name := d.Name, Fields := fl.filterMap (classified E),
               InternalType := E.StructType }]) ∧
    (∀ ss, ParseStruct E d = .ok ss →
      ∃ s, ss = [s] ∧ s.Fields = fl.filterMap (classified E) ∧
        s.Fields.length = fl.countP (classifiable E)) := by
  refine ⟨ParseStruct_of_completes E d obj decl fl hObj hDecl hTyp, ?_⟩
  intro ss hss
  rw [ParseStruct_of_struct E d obj decl fl hObj hDecl hTyp] at hss
  cases hl : ParseStruct.loop E [] fl with
  | error p => simp [hl] at hss
  | ok xs =>
    have hall := structLoop_completes E fl [] xs hl
    have hxs : xs = fl.filterMap (classified E) := by
      have := structLoop_ok E fl [] hall
      rw [hl] at this
      simpa using this
    simp only [hl, Except.ok.injEq] at hss
    refine ⟨_, hss.symm, hxs, ?_⟩
    simp only [hxs]
    exact filterMap_classified_length E fl

theorem structLoop_append (E : Env) (pre rest : List Field) :
    ∀ acc, ParseStruct.loop E acc (pre ++ rest) =
      match ParseStruct.loop E acc pre with
      | .error p => .error p
      | .ok acc1 => ParseStruct.loop E acc1 rest := by
  induction pre with
  | nil => intro acc; simp [ParseStruct.loop]
  | cons f fs ih =>
    intro acc
    simp only [List.cons_append]
    rw [ParseStruct.loop, ParseStruct.loop]
    cases hf : ParseStructField E f with
    | error p => simp
    | ok r => cases r <;> simp [ih]

theorem ParseStructField_pointer_other (E : Env) (f : Field) (t : Expr)
    (hf : f.Typ = some t) (ht : t.isPointerToMapOrArray = true) :
    ParseStructField E f = .ok none := by
  rw [ParseStructField, hf]
  cases t <;> simp [Expr.isPointerToMapOrArray] at ht ⊢
  rename_i x
  cases x <;> simp [Expr.isPointerToMapOrArray] at ht ⊢

/-- C4, as amended: a field whose type is a pointer to a map or to an
array/slice gets no entry from `ParseStructField`; a struct declaration that
contains such a field, and on each sibling field of which `ParseStructField`
returns, gives one `ScannedStruct` whose `Fields` are the entries of the
siblings, in order; in every case it gives the same result as the same
declaration without the field. -/
theorem C4_pointer_to_map_or_array_dropped (E : Env) (f : Field) (t : Expr)
    (hf : f.Typ = some t) (ht : t.isPointerToMapOrArray = true) :
    ParseStructField E f = .ok none ∧
    ∀ (d : Ident) (obj : Object) (decl : Decl) (pre post : List Field),
      d.Obj = some obj → obj.Decl = some decl →
      decl.fieldByNameType = some (some (.StructType (some (pre ++ f :: post)))) →
      ((∀ g ∈ pre ++ post, completes E g = true) →
        ParseStruct E d =
          .ok [{ Doc := none, Name := d.Name,
                 Fields := (pre ++ post).filterMap (classified E),
                 InternalType := E.StructType }]) ∧
      (∀ (d1 : Ident) (obj1 : Object) (decl1 : Decl),
        d1.Obj = some obj1 → obj1.Decl = some decl1 →
        decl1.fieldByNameType = some (some (.StructType (some (pre ++ post)))) →
        d1.Name = d.Name → ParseStruct E d = ParseStruct E d1) := by
  have hnone := ParseStructField_pointer_other E f t hf ht
  refine ⟨hnone, ?_⟩
  intro d obj decl pre post hObj hDecl hTyp
  have hloop : ∀ acc, ParseStruct.loop E acc (pre ++ f :: post) =
      ParseStruct.loop E acc (pre ++ post) := by
    intro acc
    rw [structLoop_append, structLoop_append E pre post]
    cases ParseStruct.loop E acc pre with
    | error p => rfl
    | ok acc1 => simp only []; rw [ParseStruct.loop, hnone]
  constructor
  · intro hall
    rw [ParseStruct_of_struct E d obj decl _ hObj hDecl hTyp, hloop,
      structLoop_ok E _ [] hall]
    simp
  · intro d1 obj1 decl1 hObj1 hDecl1 hTyp1 hName
    rw [ParseStruct_of_struct E d obj decl _ hObj hDecl hTyp,
      ParseStruct_of_struct E d1 obj1 decl1 _ hObj1 hDecl1 hTyp1, hloop, hName]

theorem ParseStructField_pointer_tagged (E : Env) (doc : Option CommentGroup)
    (name : Ident) (names : List Ident) (value : Ident) (tag : BasicLit) :
    ParseStructField E (.mk doc (name :: names) (some (.StarExpr (.Ident value))) (some tag)) =
      .ok (some
        { Name := name.Name, Kind := value.Name, Tag := tag.Value,
          Doc := E.ExtractComments doc, ImportDetails := none, SubFields := [],
          InternalType := E.VarType, IsPointer := true }) := by
  rw [ParseStructField]; rfl

theorem ParseStructField_pointer_untagged (E : Env) (doc : Option CommentGroup)
    (name : Ident) (names : List Ident) (value : Ident) :
    ParseStructField E (.mk doc (name :: names) (some (.StarExpr (.Ident value))) none) =
      .error .nilDereference := by
  rw [ParseStructField]; rfl

theorem ParseStructField_pointer_embedded (E : Env) (doc : Option CommentGroup)
    (value : Ident) (tag : Option BasicLit) :
    ParseStructField E (.mk doc [] (some (.StarExpr (.Ident value))) tag) =
      .error .indexOutOfRange := by
  rw [ParseStructField]; rfl

theorem ParseStructField_nested (E : Env) (doc : Option CommentGroup) (name : Ident)
    (names : List Ident) (list : List Field) (tag : Option BasicLit)
    (hlist : ∀ g ∈ list, completes E g = true) :
    ParseStructField E (.mk doc (name :: names) (some (.StructType (some list))) tag) =
      .ok (some
        { Name := name.Name, Kind := "struct", Tag := tagText tag,
          Doc := E.ExtractComments doc, ImportDetails := none,
          SubFields := list.filterMap (classified E), InternalType := 0,
          IsPointer := false }) := by
  rw [ParseStructField]
  simp only [Field.Typ]
  rw [ParseNestedStruct]
  simp only [Field.Typ, Field.Tag, Field.Names, Field.Doc]
  rw [nestedLoop_ok E list [] hlist]
  cases tag <;> simp [tagText]

theorem ParseStructField_nested_error (E : Env) (doc : Option CommentGroup)
    (names : List Ident) (list : List Field) (tag : Option BasicLit) (g : Field)
    (hg : g ∈ list) (hcomp : completes E g = false) :
    ∃ p, ParseStructField E (.mk doc names (some (.StructType (some list))) tag) =
      .error p := by
  rw [ParseStructField]
  simp only [Field.Typ]
  rw [ParseNestedStruct]
  simp only [Field.Typ]
  cases hl : ParseNestedStruct.loop E [] list with
  | error p => exact ⟨p, rfl⟩
  | ok xs =>
    have := nestedLoop_completes E list [] xs hl g hg
    rw [hcomp] at this
    cases this

theorem ParseComplexStructField_returns_iff (E : Env) (name : Ident) :
    (∃ r, ParseComplexStructField E name = .ok r) ↔ ComplexSafe E name := by
  cases hObj : name.Obj with
  | none => simp [ParseComplexStructField, ComplexSafe, hObj]
  | some obj =>
    cases hDecl : obj.Decl with
    | none => simp [ParseComplexStructField, ComplexSafe, hObj, hDecl]
    | some decl =>
      cases decl with
      | Field g =>
        cases hT : g.Typ with
        | none =>
          simp [ParseComplexStructField, ComplexSafe, hObj, hDecl, Decl.fieldByNameTag,
            Decl.fieldByNameDoc, Decl.fieldByNameType, hT]
        | some t =>
          cases t with
          | ArrayType len elt =>
            cases hK : E.GetSliceType (.ArrayType len elt) with
            | error p =>
              simp [ParseComplexStructField, ComplexSafe, hObj, hDecl, Decl.fieldByNameTag,
                Decl.fieldByNameDoc, Decl.fieldByNameType, hT, hK]
            | ok kind =>
              cases hTag : g.Tag with
              | none =>
                simp [ParseComplexStructField, ComplexSafe, hObj, hDecl,
                  Decl.fieldByNameTag, Decl.fieldByNameDoc, Decl.fieldByNameType, hT, hK,
                  hTag]
              | some tg =>
                simp [ParseComplexStructField, ComplexSafe, hObj, hDecl,
                  Decl.fieldByNameTag, Decl.fieldByNameDoc, Decl.fieldByNameType, hT, hK,
                  hTag]
          | _ =>
            simp [ParseComplexStructField, ComplexSafe, hObj, hDecl, Decl.fieldByNameTag,
              Decl.fieldByNameDoc, Decl.fieldByNameType, hT]
      | _ => simp [ParseComplexStructField, ComplexSafe, hObj, hDecl, Decl.fieldByNameTag]

theorem ParseComplexStructField_model (E : Env) (name : Ident) (obj : Object) (g : Field)
    (l : Option Expr) (e : Expr) (t : BasicLit) (kind : String)
    (hObj : name.Obj = some obj) (hDecl : obj.Decl = some (.Field g))
    (hTyp : g.Typ = some (.ArrayType l e)) (hTag : g.Tag = some t)
    (hKind : E.GetSliceType (.ArrayType l e) = .ok kind) :
    ParseComplexStructField E name =
      .ok (some
        { Name := name.Name, Kind := kind, Tag := t.Value,
          Doc := E.ExtractComments g.Doc, ImportDetails := none, SubFields := [],
          InternalType := E.SliceType, IsPointer := false }) := by
  simp [ParseComplexStructField, hObj, hDecl, Decl.fieldByNameTag, Decl.fieldByNameDoc,
    Decl.fieldByNameType, hTyp, hTag, hKind]

theorem completes_of_safe {E : Env} {f : Field} (h : Safe E f) : completes E f = true := by
  induction h with
  | noType doc names tag => rw [completes, ParseStructField]; rfl
  | unsupported doc names t tag ht =>
    rw [completes, ParseStructField]
    cases t <;> simp [Expr.isUnsupportedFieldType, Field.Typ] at ht ⊢
  | pointerToOther doc names x tag hx =>
    rw [completes, ParseStructField]
    cases x <;> simp [Expr.isIdent, Field.Typ] at hx ⊢
  | pointer doc name names value tag =>
    rw [completes, ParseStructField_pointer_tagged]
  | simple doc names id tag r hr =>
    rw [completes, ParseStructField]; simp only [Field.Typ]; rw [hr]
  | map doc names key value tag r hr =>
    rw [completes, ParseStructField]; simp only [Field.Typ]; rw [hr]
  | imported doc names x sel tag r hr =>
    rw [completes, ParseStructField]; simp only [Field.Typ]; rw [hr]
  | nested doc name names list tag _ ih =>
    rw [completes, ParseStructField_nested E doc name names list tag ih]
  | array doc name names len elt tag hc =>
    obtain ⟨r, hr⟩ := (ParseComplexStructField_returns_iff E name).2 hc
    rw [completes, ParseStructField]; simp only [Field.Typ, Field.Names]; rw [hr]

theorem sizeOf_lt_of_mem_nested (doc : Option CommentGroup) (names : List Ident)
    (list : List Field) (tag : Option BasicLit) (g : Field) (hg : g ∈ list) :
    sizeOf g < sizeOf (Field.mk doc names (some (.StructType (some list))) tag) := by
  have := List.sizeOf_lt_of_mem hg
  simp only [Field.mk.sizeOf_spec, Option.some.sizeOf_spec, Expr.StructType.sizeOf_spec]
  omega

theorem safe_of_completes (E : Env) :
    ∀ (n : Nat) (f : Field), sizeOf f ≤ n → completes E f = true → Safe E f := by
  intro n
  induction n with
  | zero =>
    intro f hn _
    cases f with
    | mk doc names typ tag => simp only [Field.mk.sizeOf_spec] at hn; omega
  | succ n ih =>
    intro f hn hc
    cases f with
    | mk doc names typ tag =>
      cases typ with
      | none => exact Safe.noType doc names tag
      | some t =>
        obtain ⟨r, hr⟩ := (completes_iff E _).1 hc
        rw [ParseStructField] at hr
        simp only [Field.Typ, Field.Names, Field.Tag] at hr
        cases t with
        | Ident id => exact Safe.simple doc names id tag r hr
        | MapType key value => exact Safe.map doc names key value tag r hr
        | SelectorExpr x sel => exact Safe.imported doc names x sel tag r hr
        | ArrayType len elt =>
          cases names with
          | nil => simp at hr
          | cons name rest =>
            exact Safe.array doc name rest len elt tag
              ((ParseComplexStructField_returns_iff E name).1 ⟨r, hr⟩)
        | StarExpr x =>
          cases hx : x.isIdent with
          | false => exact Safe.pointerToOther doc names x tag hx
          | true =>
            cases x <;> simp [Expr.isIdent] at hx
            rename_i value
            cases names with
            | nil => simp at hr
            | cons name rest =>
              cases tag with
              | none => simp at hr
              | some tg => exact Safe.pointer doc name rest value tg
        | StructType fields =>
          cases fields with
          | none => rw [ParseNestedStruct] at hr; simp [Field.Typ] at hr
          | some list =>
            rw [ParseNestedStruct] at hr
            simp only [Field.Typ, Field.Names] at hr
            cases hl : ParseNestedStruct.loop E [] list with
            | error p => simp [hl] at hr
            | ok xs =>
              cases names with
              | nil => simp [hl] at hr
              | cons name rest =>
                refine Safe.nested doc name rest list tag ?_
                intro g hg
                have hlt := sizeOf_lt_of_mem_nested doc (name :: rest) list tag g hg
                exact ih g (by omega) (nestedLoop_completes E list [] xs hl g hg)
        | _ => exact Safe.unsupported doc names _ tag rfl

theorem Safe_iff_returns (E : Env) (f : Field) :
    Safe E f ↔ ∃ r, ParseStructField E f = .ok r :=
  ⟨fun h => (completes_iff E f).1 (completes_of_safe h),
   fun h => safe_of_completes E (sizeOf f) f (Nat.le_refl _) ((completes_iff E f).2 h)⟩

theorem valueLoop_ok (E : Env) (d : Ident) (vs : List Expr) :
    ∀ acc, (∀ v ∈ vs, itemCompletes E d v = true) →
      ParseConstantsAndVariables.loop E d acc vs = .ok (acc ++ vs.filterMap (emitted E d)) := by
  induction vs with
  | nil => intro acc _; simp [ParseConstantsAndVariables.loop]
  | cons v rest ih =>
    intro acc h
    have hv : itemCompletes E d v = true := h v (List.mem_cons_self _ _)
    have hrest : ∀ w ∈ rest, itemCompletes E d w = true :=
      fun w hw => h w (List.mem_cons_of_mem _ hw)
    unfold itemCompletes at hv
    cases hr : ParseConstantsAndVariables.item E d v with
    | error p => simp [hr] at hv
    | ok r =>
      cases r with
      | none => simp [ParseConstantsAndVariables.loop, hr, emitted, ih acc hrest]
      | some e => simp [ParseConstantsAndVariables.loop, hr, emitted, ih (acc ++ [e]) hrest]

theorem valueLoop_completes (E : Env) (d : Ident) (vs : List Expr) :
    ∀ acc xs, ParseConstantsAndVariables.loop E d acc vs = .ok xs →
      ∀ v ∈ vs, itemCompletes E d v = true := by
  induction vs with
  | nil => intro _ _ _ v hv; cases hv
  | cons w rest ih =>
    intro acc xs h v hv
    unfold ParseConstantsAndVariables.loop at h
    cases hw : ParseConstantsAndVariables.item E d w with
    | error p => simp [hw] at h
    | ok r =>
      rcases List.mem_cons.1 hv with rfl | hmem
      · simp [itemCompletes, hw]
      · cases r with
        | none => simp only [hw] at h; exact ih _ _ h v hmem
        | some e => simp only [hw] at h; exact ih _ _ h v hmem

theorem valueLoop_append (E : Env) (d : Ident) (pre rest : List Expr) :
    ∀ acc, ParseConstantsAndVariables.loop E d acc (pre ++ rest) =
      match ParseConstantsAndVariables.loop E d acc pre with
      | .error p => .error p
      | .ok acc1 => ParseConstantsAndVariables.loop E d acc1 rest := by
  induction pre with
  | nil => intro acc; simp [ParseConstantsAndVariables.loop]
  | cons v vs ih =>
    intro acc
    simp only [List.cons_append]
    rw [ParseConstantsAndVariables.loop, ParseConstantsAndVariables.loop]
    cases hv : ParseConstantsAndVariables.item E d v with
    | error p => simp
    | ok r => cases r <;> simp [ih]

theorem ParseConstantsAndVariables_of_values (E : Env) (d : Ident) (obj : Object)
    (decl : Decl) (values : List Expr) (hObj : d.Obj = some obj)
    (hDecl : obj.Decl = some decl) (hValues : decl.fieldByNameValues = some values) :
    ParseConstantsAndVariables E d = ParseConstantsAndVariables.loop E d [] values := by
  simp [ParseConstantsAndVariables, hObj, hDecl, hValues]

theorem item_of_contributes {E : Env} {d : Ident} {v : Expr} {r : Option ScannedType}
    (h : Contributes E d v r) : ParseConstantsAndVariables.item E d v = .ok r := by
  cases r with
  | none =>
    obtain ⟨item, rfl, hitem⟩ := h
    simp [ParseConstantsAndVariables.item, hitem]
  | some e =>
    have hb : Builds E d v e := h
    cases hb with
    | literal item _ hitem => simp [ParseConstantsAndVariables.item, hitem]
    | identifier item _ hitem => simp [ParseConstantsAndVariables.item, hitem]
    | mapLiteral key value elts _ hitem => simp [ParseConstantsAndVariables.item, hitem]
    | sliceLiteral len elt elts sliceType _ hkind hitem =>
      simp [ParseConstantsAndVariables.item, hkind, hitem]

theorem loop_of_contributes (E : Env) (d : Ident) (values : List Expr)
    (rs : List (Option ScannedType)) (h : List.Forall₂ (Contributes E d) values rs) :
    ∀ acc, ParseConstantsAndVariables.loop E d acc values = .ok (acc ++ rs.reduceOption) := by
  induction h with
  | nil => intro acc; simp [ParseConstantsAndVariables.loop]
  | @cons v r vs rs1 hvr _ ih =>
    intro acc
    rw [ParseConstantsAndVariables.loop, item_of_contributes hvr]
    cases r with
    | none => simp [ih acc, List.reduceOption_cons_of_none]
    | some e => simp [ih (acc ++ [e]), List.reduceOption_cons_of_some]

/-- C9: for a const/var declaration with initializers `values`, when every
initializer is a plain literal, a resolving identifier or a map/array composite
literal from which the builder builds an entry, `ParseConstantsAndVariables`
returns exactly one entry per initializer, the i-th built from the i-th
initializer; in general each bare identifier that does not resolve contributes
nothing and the entries of the others keep their order. -/
theorem C9_entries_in_initializer_order (E : Env) (d : Ident) (obj : Object) (decl : Decl)
    (values : List Expr) (hObj : d.Obj = some obj) (hDecl : obj.Decl = some decl)
    (hValues : decl.fieldByNameValues = some values) :
    (∀ es, List.Forall₂ (Builds E d) values es →
      ParseConstantsAndVariables E d = .ok es ∧ es.length = values.length) ∧
    (∀ rs, List.Forall₂ (Contributes E d) values rs →
      ParseConstantsAndVariables E d = .ok rs.reduceOption ∧
        rs.reduceOption.length + rs.count none = values.length) := by
  have hsecond : ∀ rs, List.Forall₂ (Contributes E d) values rs →
      ParseConstantsAndVariables E d = .ok rs.reduceOption := by
    intro rs hrs
    rw [ParseConstantsAndVariables_of_values E d obj decl values hObj hDecl hValues,
      loop_of_contributes E d values rs hrs []]
    simp
  constructor
  · intro es hes
    have hrs : List.Forall₂ (Contributes E d) values (es.map some) :=
      List.forall₂_map_right_iff.2 (hes.imp (fun _ _ h => h))
    have hred : (es.map some).reduceOption = es := by
      simp [List.reduceOption, List.filterMap_map]
    have := hsecond _ hrs
    rw [hred] at this
    exact ⟨this, hes.length_eq.symm⟩
  · intro rs hrs
    refine ⟨hsecond rs hrs, ?_⟩
    rw [hrs.length_eq]
    clear hrs
    induction rs with
    | nil => rfl
    | cons r rest ih =>
      cases r with
      | none => simp [List.reduceOption_cons_of_none] at ih ⊢; omega
      | some e => simp [List.reduceOption_cons_of_some] at ih ⊢; omega

theorem eval_fieldX : ParseStructField sampleEnv fieldX = .ok (some entryX) := by
  rw [ParseStructField]; rfl

theorem eval_taggedPointerField :
    ParseStructField sampleEnv taggedPointerField = .ok (some entryP) := by
  rw [ParseStructField]; rfl

theorem eval_untaggedPointerField :
    ParseStructField sampleEnv untaggedPointerField = .error .nilDereference := by
  rw [ParseStructField]; rfl

theorem eval_embeddedPointerField :
    ParseStructField sampleEnv embeddedPointerField = .error .indexOutOfRange := by
  rw [ParseStructField]; rfl

theorem eval_pointerToMapField :
    ParseStructField sampleEnv pointerToMapField = .ok none := by
  rw [ParseStructField]; rfl

theorem eval_funcField : ParseStructField sampleEnv funcField = .ok none := by
  rw [ParseStructField]; rfl

theorem model_of_supported {E : Env} {f : Field} (h : Supported E f) :
    ∃ e, ParseStructField E f = .ok (some e) := by
  cases h with
  | simple doc names id tag e he =>
    exact ⟨e, by rw [ParseStructField]; simp only [Field.Typ]; rw [he]⟩
  | map doc names key value tag e he =>
    exact ⟨e, by rw [ParseStructField]; simp only [Field.Typ]; rw [he]⟩
  | imported doc names x sel tag e he =>
    exact ⟨e, by rw [ParseStructField]; simp only [Field.Typ]; rw [he]⟩
  | pointer doc name names value tag =>
    exact ⟨_, ParseStructField_pointer_tagged E doc name names value tag⟩
  | nested doc name names list tag hlist =>
    exact ⟨_, ParseStructField_nested E doc name names list tag
      (fun g hg => completes_of_safe (hlist g hg))⟩
  | array doc name names len elt tag obj g l e t kind hObj hDecl hTyp hTag hKind =>
    have hmodel :=
      ParseComplexStructField_model E name obj g l e t kind hObj hDecl hTyp hTag hKind
    exact ⟨_, by rw [ParseStructField]; simp only [Field.Typ, Field.Names]; exact hmodel⟩

theorem forall₂_classified (E : Env) (fl : List Field)
    (h : ∀ f ∈ fl, ∃ e, ParseStructField E f = .ok (some e)) :
    List.Forall₂ (fun f e => ParseStructField E f = .ok (some e)) fl
      (fl.filterMap (classified E)) := by
  induction fl with
  | nil => exact List.Forall₂.nil
  | cons f fs ih =>
    obtain ⟨e, he⟩ := h f (List.mem_cons_self _ _)
    have hc : classified E f = some e := classified_of_ok he
    rw [List.filterMap_cons, hc]
    exact List.Forall₂.cons he (ih (fun g hg => h g (List.mem_cons_of_mem _ hg)))

/-- C1, as amended: for a struct declaration whose fields are all `Supported`
(named, of the six supported shapes, pointer and array/slice fields tagged, the
helpers returning a model), `ParseStruct` returns one `ScannedStruct` whose
`Fields` has the length of the field list and whose i-th entry is the model
`ParseStructField` builds for the i-th field. -/
theorem C1_supported_fields_all_modelled (E : Env) (d : Ident) (obj : Object)
    (decl : Decl) (fl : List Field) (hObj : d.Obj = some obj) (hDecl : obj.Decl = some decl)
    (hTyp : decl.fieldByNameType = some (some (.StructType (some fl))))
    (hfl : ∀ f ∈ fl, Supported E f) :
    ∃ es, ParseStruct E d =
        .ok [{ Doc := none, Name := d.Name, Fields := es, InternalType := E.StructType }] ∧
      es.length = fl.length ∧
      List.Forall₂ (fun f e => ParseStructField E f = .ok (some e)) fl es := by
  have hmodel : ∀ f ∈ fl, ∃ e, ParseStructField E f = .ok (some e) :=
    fun f hf => model_of_supported (hfl f hf)
  have hcomp : ∀ f ∈ fl, completes E f = true := by
    intro f hf
    obtain ⟨e, he⟩ := hmodel f hf
    exact (completes_iff E f).2 ⟨_, he⟩
  have hall := forall₂_classified E fl hmodel
  exact ⟨fl.filterMap (classified E),
    ParseStruct_of_completes E d obj decl fl hObj hDecl hTyp hcomp,
    hall.length_eq.symm, hall⟩

/-- C1 fails as stated: every field of `type A struct { X int; *B "json" }` has a
supported shape, but `ParseStruct` panics on the embedded pointer field (the
element 0 of its empty name list) and returns no `ScannedStruct`. -/
theorem C1_counterexample :
    (∀ f ∈ [fieldX, embeddedPointerField],
      ∃ t, f.Typ = some t ∧ t.isSupportedFieldType = true) ∧
    ParseStruct sampleEnv (structDecl "A" [fieldX, embeddedPointerField]) =
      .error .indexOutOfRange ∧
    ¬ ∃ s, ParseStruct sampleEnv (structDecl "A" [fieldX, embeddedPointerField]) = .ok [s] := by
  have h : ParseStruct sampleEnv (structDecl "A" [fieldX, embeddedPointerField]) =
      .error .indexOutOfRange := by
    rw [ParseStruct_of_struct sampleEnv (structDecl "A" [fieldX, embeddedPointerField]) _ _
      [fieldX, embeddedPointerField] rfl rfl rfl]
    simp [ParseStruct.loop, eval_fieldX, eval_embeddedPointerField]
  refine ⟨?_, h, ?_⟩
  · intro f hf
    simp only [List.mem_cons, List.mem_singleton, List.not_mem_nil, or_false] at hf
    rcases hf with rfl | rfl
    · exact ⟨_, rfl, rfl⟩
    · exact ⟨_, rfl, rfl⟩
  · rintro ⟨s, hs⟩
    rw [h] at hs
    cases hs

/-- C3, at the failing input: on the untagged field `P *int`, and on every named
pointer-to-named-type field without a tag, `ParseStructField` panics reading
`item.Tag.Value` through the nil tag; no entry is built. -/
theorem C3_untagged_pointer_field_panics :
    ParseStructField sampleEnv untaggedPointerField = .error .nilDereference ∧
    ∀ (E : Env) (doc : Option CommentGroup) (name : Ident) (names : List Ident)
      (value : Ident),
      ParseStructField E (.mk doc (name :: names) (some (.StarExpr (.Ident value))) none) =
        .error .nilDereference :=
  ⟨ParseStructField_pointer_untagged sampleEnv _ _ _ _, ParseStructField_pointer_untagged⟩

/-- C5, as amended: a nested struct field that has a name, and on each field of
whose field list `ParseStructField` returns, gets an entry with `Kind = "struct"`,
the field's first name, its tag text (empty without a tag) and doc, and `SubFields`
equal to the in-order non-empty classifier results of the nested fields; their
count is the number of classifiable nested fields.  The nested fields are
arbitrary, so this holds at every nesting depth. -/
theorem C5_nested_struct_entry (E : Env) (doc : Option CommentGroup) (name : Ident)
    (names : List Ident) (list : List Field) (tag : Option BasicLit)
    (hlist : ∀ g ∈ list, completes E g = true) :
    ParseStructField E (.mk doc (name :: names) (some (.StructType (some list))) tag) =
      .ok (some
        { Name := name.Name, Kind := "struct", Tag := tagText tag,
          Doc := E.ExtractComments doc, ImportDetails := none,
          SubFields := list.filterMap (classified E), InternalType := 0,
          IsPointer := false }) ∧
    (list.filterMap (classified E)).length = list.countP (classifiable E) :=
  ⟨ParseStructField_nested E doc name names list tag hlist,
   filterMap_classified_length E list⟩

/-- C5 fails as stated: for the nested struct field `In struct { *B "json" }`
`ParseStructField` yields no entry; it panics on the embedded pointer inside. -/
theorem C5_counterexample :
    ParseStructField sampleEnv nestedWithEmbeddedPointer = .error .indexOutOfRange ∧
    ¬ ∃ e, ParseStructField sampleEnv nestedWithEmbeddedPointer = .ok (some e) := by
  have h : ParseStructField sampleEnv nestedWithEmbeddedPointer = .error .indexOutOfRange := by
    rw [ParseStructField]
    simp only [nestedWithEmbeddedPointer, namedField, Field.Typ]
    rw [ParseNestedStruct]
    simp [Field.Typ, ParseNestedStruct.loop, eval_embeddedPointerField]
  refine ⟨h, ?_⟩
  rintro ⟨e, he⟩
  rw [h] at he
  cases he

/-- C8, as amended: `ParseStructField` returns a field model or the empty result
on every `Safe` field (any field of an unsupported shape; a named and tagged
pointer-to-named-type field; a named nested struct field whose fields are safe;
a named array/slice field whose first name `ParseComplexStructField` accepts; a
simple, map or imported field on which the helper returns), and `ParseStruct`
returns one `ScannedStruct` for a struct declaration made of such fields. -/
theorem C8_safe_field_never_raises (E : Env) (f : Field) (hf : Safe E f) :
    (∃ r, ParseStructField E f = .ok r) ∧
    ∀ (d : Ident) (obj : Object) (decl : Decl) (fl : List Field),
      d.Obj = some obj → obj.Decl = some decl →
      decl.fieldByNameType = some (some (.StructType (some fl))) →
      (∀ g ∈ fl, Safe E g) → ∃ s, ParseStruct E d = .ok [s] := by
  refine ⟨(completes_iff E f).1 (completes_of_safe hf), ?_⟩
  intro d obj decl fl hObj hDecl hTyp hfl
  exact ⟨_, ParseStruct_of_completes E d obj decl fl hObj hDecl hTyp
    (fun g hg => completes_of_safe (hfl g hg))⟩

/-- C8 fails as stated: on the embedded field `*B "json"`, which has a tag and no
names, `ParseStructField` panics on `item.Names[0]`. -/
theorem C8_counterexample :
    embeddedPointerField.Names = [] ∧
    ParseStructField sampleEnv embeddedPointerField = .error .indexOutOfRange ∧
    ¬ ∃ r, ParseStructField sampleEnv embeddedPointerField = .ok r := by
  have h := ParseStructField_pointer_embedded sampleEnv none (bareIdent "B")
    (some (tagLit "json"))
  refine ⟨rfl, h, ?_⟩
  rintro ⟨r, hr⟩
  rw [show embeddedPointerField = Field.mk none [] (some (.StarExpr (.Ident (bareIdent "B"))))
    (some (tagLit "json")) from rfl, h] at hr
  cases hr

theorem ParseStruct_of_not_struct (E : Env) (d : Ident) (obj : Object) (decl : Decl)
    (hObj : d.Obj = some obj) (hDecl : obj.Decl = some decl)
    (h : ∀ fields, decl.fieldByNameType ≠ some (some (.StructType fields))) :
    ParseStruct E d = .ok [] := by
  unfold ParseStruct
  simp only [hObj, hDecl]
  cases hT : decl.fieldByNameType with
  | none => rfl
  | some typ =>
    cases typ with
    | none => rfl
    | some t =>
      cases t with
      | StructType fields => exact absurd hT (h fields)
      | _ => rfl

/-- C6, as amended: for an identifier resolved to a declaration, `ParseStruct`
returns exactly one `ScannedStruct`, named after the identifier and with
`InternalType = StructType`, when the declaration's type is a struct type on each
field of which `ParseStructField` returns; it returns the empty result when the
declaration has no `Type` member, a nil type or a type that is not a struct type;
it never returns more than one.  `ParseConstantsAndVariables` returns the empty
result when the declaration has no `Values` member or an empty initializer list. -/
theorem C6_zero_or_one_struct (E : Env) (d : Ident) (obj : Object) (decl : Decl)
    (hObj : d.Obj = some obj) (hDecl : obj.Decl = some decl) :
    (∀ fl, decl.fieldByNameType = some (some (.StructType (some fl))) →
      (∀ f ∈ fl, completes E f = true) →
      ∃ s, ParseStruct E d = .ok [s] ∧ s.Name = d.Name ∧ s.InternalType = E.StructType) ∧
    (decl.fieldByNameType = none → ParseStruct E d = .ok []) ∧
    (decl.fieldByNameType = some none → ParseStruct E d = .ok []) ∧
    (∀ t, decl.fieldByNameType = some (some t) → t.isStructType = false →
      ParseStruct E d = .ok []) ∧
    (∀ ss, ParseStruct E d = .ok ss → ss.length ≤ 1) ∧
    (decl.fieldByNameValues = none → ParseConstantsAndVariables E d = .ok []) ∧
    (decl.fieldByNameValues = some [] → ParseConstantsAndVariables E d = .ok []) := by
  refine ⟨?_, ?_, ?_, ?_, ?_, ?_, ?_⟩
  · intro fl hTyp hfl
    exact ⟨_, ParseStruct_of_completes E d obj decl fl hObj hDecl hTyp hfl, rfl, rfl⟩
  · intro hT
    exact ParseStruct_of_not_struct E d obj decl hObj hDecl (by simp [hT])
  · intro hT
    exact ParseStruct_of_not_struct E d obj decl hObj hDecl (by simp [hT])
  · intro t hT ht
    apply ParseStruct_of_not_struct E d obj decl hObj hDecl
    intro fields hfields
    rw [hT] at hfields
    cases t <;> simp [Expr.isStructType] at ht hfields
  · intro ss hss
    unfold ParseStruct at hss
    simp only [hObj, hDecl] at hss
    split at hss
    · cases hss; simp
    · split at hss
      · cases hss
      · split at hss
        · cases hss
        · cases hss; simp
    · cases hss; simp
  · intro hV
    simp [ParseConstantsAndVariables, hObj, hDecl, hV]
  · intro hV
    simp [ParseConstantsAndVariables, hObj, hDecl, hV, ParseConstantsAndVariables.loop]

/-- C6 fails as stated: the type of `var v struct { *B "json" }` is a struct
type, but `ParseStruct` returns no `ScannedStruct`; it panics on the embedded
pointer field. -/
theorem C6_counterexample :
    (∃ obj decl fl, varWithEmbeddedPointer.Obj = some obj ∧ obj.Decl = some decl ∧
      decl.fieldByNameType = some (some (.StructType (some fl)))) ∧
    ParseStruct sampleEnv varWithEmbeddedPointer = .error .indexOutOfRange ∧
    ¬ ∃ ss, ParseStruct sampleEnv varWithEmbeddedPointer = .ok ss := by
  have h : ParseStruct sampleEnv varWithEmbeddedPointer = .error .indexOutOfRange := by
    rw [ParseStruct_of_struct sampleEnv varWithEmbeddedPointer _ _ [embeddedPointerField]
      rfl rfl rfl]
    simp [ParseStruct.loop, eval_embeddedPointerField]
  refine ⟨⟨_, _, _, rfl, rfl, rfl⟩, h, ?_⟩
  rintro ⟨ss, hss⟩
  rw [h] at hss
  cases hss

/-- C7, as amended: for an identifier whose object is resolved and carries a
declaration, `ParseStruct` returns a (possibly empty) result whenever the
declaration is not struct-typed, or is struct-typed with a field list on each
field of which `ParseStructField` returns, and `ParseConstantsAndVariables`
returns a (possibly empty) result whenever the builders return on the
initializers; a declaration with neither a `Type` nor a `Values` member gives the
empty result from both. -/
theorem C7_resolved_identifier_returns (E : Env) (d : Ident) (obj : Object) (decl : Decl)
    (hObj : d.Obj = some obj) (hDecl : obj.Decl = some decl) :
    ((∀ fields, decl.fieldByNameType = some (some (.StructType fields)) →
        ∃ fl, fields = some fl ∧ ∀ f ∈ fl, completes E f = true) →
      ∃ r, ParseStruct E d = .ok r) ∧
    ((∀ values, decl.fieldByNameValues = some values →
        ∀ v ∈ values, itemCompletes E d v = true) →
      ∃ r, ParseConstantsAndVariables E d = .ok r) ∧
    (decl.fieldByNameType = none → decl.fieldByNameValues = none →
      ParseStruct E d = .ok [] ∧ ParseConstantsAndVariables E d = .ok []) := by
  refine ⟨?_, ?_, ?_⟩
  · intro h
    by_cases hs : ∃ fields, decl.fieldByNameType = some (some (.StructType fields))
    · obtain ⟨fields, hfields⟩ := hs
      obtain ⟨fl, rfl, hfl⟩ := h fields hfields
      exact ⟨_, ParseStruct_of_completes E d obj decl fl hObj hDecl hfields hfl⟩
    · exact ⟨_, ParseStruct_of_not_struct E d obj decl hObj hDecl
        (fun fields hfields => hs ⟨fields, hfields⟩)⟩
  · intro h
    cases hV : decl.fieldByNameValues with
    | none => exact ⟨[], by simp [ParseConstantsAndVariables, hObj, hDecl, hV]⟩
    | some values =>
      have hloop := valueLoop_ok E d values [] (h values hV)
      exact ⟨_, by
        rw [ParseConstantsAndVariables_of_values E d obj decl values hObj hDecl hV]
        exact hloop⟩
  · intro hT hV
    exact ⟨ParseStruct_of_not_struct E d obj decl hObj hDecl (by simp [hT]),
      by simp [ParseConstantsAndVariables, hObj, hDecl, hV]⟩

/-- C7 fails as stated: on an identifier with no resolved object (`Obj` nil), and
on one whose object carries no declaration (`Decl` nil), both `ParseStruct` and
`ParseConstantsAndVariables` panic. -/
theorem C7_counterexample :
    (bareIdent "int").Obj = none ∧
    ParseStruct sampleEnv (bareIdent "int") = .error .nilDereference ∧
    ParseConstantsAndVariables sampleEnv (bareIdent "int") = .error .nilDereference ∧
    ParseStruct sampleEnv undeclaredIdent = .error .reflectZeroValue ∧
    ParseConstantsAndVariables sampleEnv undeclaredIdent = .error .reflectZeroValue :=
  ⟨rfl, rfl, rfl, rfl, rfl⟩

theorem item_of_other (E : Env) (d : Ident) (v : Expr) (hv : v.isOtherInitializer = true) :
    ParseConstantsAndVariables.item E d v = .ok none := by
  unfold ParseConstantsAndVariables.item
  cases v with
  | CompositeLit typ elts =>
    cases typ with
    | none => rfl
    | some t => cases t <;> simp [Expr.isOtherInitializer] at hv ⊢
  | _ => simp [Expr.isOtherInitializer] at hv ⊢

/-- C10: an initializer that is none of plain literal, bare identifier, map
composite literal, array/slice composite literal gets no entry and makes no
builder call; the loop over a list that contains it continues as over the list
without it, so `ParseConstantsAndVariables` returns the entries of the other
initializers, in order, whenever the builders return on them. -/
theorem C10_other_initializer_dropped (E : Env) (d : Ident) (v : Expr)
    (hv : v.isOtherInitializer = true) :
    ParseConstantsAndVariables.item E d v = .ok none ∧
    ∀ (obj : Object) (decl : Decl) (pre post : List Expr),
      d.Obj = some obj → obj.Decl = some decl →
      decl.fieldByNameValues = some (pre ++ v :: post) →
      ParseConstantsAndVariables E d = ParseConstantsAndVariables.loop E d [] (pre ++ post) ∧
      ((∀ w ∈ pre ++ post, itemCompletes E d w = true) →
        ParseConstantsAndVariables E d = .ok ((pre ++ post).filterMap (emitted E d))) := by
  have hnone := item_of_other E d v hv
  refine ⟨hnone, ?_⟩
  intro obj decl pre post hObj hDecl hValues
  have hloop : ParseConstantsAndVariables E d =
      ParseConstantsAndVariables.loop E d [] (pre ++ post) := by
    rw [ParseConstantsAndVariables_of_values E d obj decl _ hObj hDecl hValues,
      valueLoop_append,
      valueLoop_append E d pre post]
    cases ParseConstantsAndVariables.loop E d [] pre with
    | error p => rfl
    | ok acc1 => simp only []; rw [ParseConstantsAndVariables.loop, hnone]
  refine ⟨hloop, ?_⟩
  intro hall
  rw [hloop, valueLoop_ok E d _ [] hall]
  simp

/-! ## Instances on the sample declarations -/

theorem safe_nestedField_fields :
    ∀ g ∈ [fieldX, pointerToMapField, taggedPointerField], Safe sampleEnv g := by
  intro g hg
  simp only [List.mem_cons, List.mem_singleton, List.not_mem_nil, or_false] at hg
  rcases hg with rfl | rfl | rfl
  · exact Safe.simple none _ (bareIdent "int") none (some entryX) rfl
  · exact Safe.pointerToOther none _ _ none rfl
  · exact Safe.pointer none _ [] (bareIdent "int") (tagLit "json")

theorem supported_supportedFields : ∀ f ∈ supportedFields, Supported sampleEnv f := by
  intro f hf
  simp only [supportedFields, List.mem_cons, List.mem_singleton, List.not_mem_nil,
    or_false] at hf
  rcases hf with rfl | rfl | rfl | rfl | rfl | rfl
  · exact Supported.simple none _ (bareIdent "int") none entryX rfl
  · exact Supported.pointer none _ [] (bareIdent "int") (tagLit "json")
  · exact Supported.nested none _ [] _ none safe_nestedField_fields
  · exact Supported.array none _ [] none (namedType "string") (some (tagLit "json"))
      _ _ none (namedType "string") (tagLit "json") "[]string" rfl rfl rfl rfl rfl
  · exact Supported.map none _ (namedType "string") (namedType "int") none
      { Name := "M", Kind := "map[string]int", Tag := "", Doc := none,
        ImportDetails := none, SubFields := [], InternalType := 0, IsPointer := false } rfl
  · exact Supported.imported none _ (namedType "time") (bareIdent "Time") none
      { Name := "T", Kind := "Time", Tag := "", Doc := none,
        ImportDetails := some { EntityName := "Time", PackageName := "time" },
        SubFields := [], InternalType := 0, IsPointer := false } rfl

theorem completes_mixedFields : ∀ f ∈ mixedFields, completes sampleEnv f = true := by
  intro f hf
  simp only [mixedFields, List.mem_cons, List.mem_singleton, List.not_mem_nil,
    or_false] at hf
  rcases hf with rfl | rfl | rfl
  · simp [completes, eval_fieldX]
  · simp [completes, eval_funcField]
  · simp [completes, eval_taggedPointerField]

theorem classified_mixedFields :
    mixedFields.filterMap (classified sampleEnv) = [entryX, entryP] := by
  simp [mixedFields, classified, eval_fieldX, eval_funcField, eval_taggedPointerField]

/-- The amended C1 at `type T struct { X int; P *int "json"; In struct {...};
S []string "json"; M map[string]int; T time.Time }`: six fields, six entries. -/
theorem C1_witness :
    (∀ f ∈ supportedFields, Supported sampleEnv f) ∧
    ∃ es, ParseStruct sampleEnv (structDecl "T" supportedFields) =
        .ok [{ Doc := none, Name := "T", Fields := es, InternalType := 4 }] ∧
      es.length = 6 := by
  obtain ⟨es, h1, h2, _⟩ :=
    C1_supported_fields_all_modelled sampleEnv (structDecl "T" supportedFields) _ _
      supportedFields rfl rfl rfl supported_supportedFields
  exact ⟨supported_supportedFields, es, h1, h2⟩

/-- The amended C2 at `type T struct { X int; F func(); P *int "json" }`: the unsupported
field `F` leaves no entry and `P` is still processed. -/
theorem C2_witness :
    (∀ f ∈ mixedFields, completes sampleEnv f = true) ∧
    ParseStruct sampleEnv (structDecl "T" mixedFields) =
      .ok [{ Doc := none, Name := "T", Fields := [entryX, entryP], InternalType := 4 }] := by
  have h := (C2_fields_are_nonempty_classifier_results sampleEnv
    (structDecl "T" mixedFields) _ _ mixedFields rfl rfl rfl).1 completes_mixedFields
  rw [classified_mixedFields] at h
  exact ⟨completes_mixedFields, h⟩

/-- The amended C4 at `type T struct { X int; M *map[string]int; P *int "json" }`. -/
theorem C4_witness :
    pointerToMapField.Typ =
      some (.StarExpr (.MapType (namedType "string") (namedType "int"))) ∧
    ParseStructField sampleEnv pointerToMapField = .ok none ∧
    ParseStruct sampleEnv (structDecl "T" [fieldX, pointerToMapField, taggedPointerField]) =
      .ok [{ Doc := none, Name := "T", Fields := [entryX, entryP], InternalType := 4 }] := by
  have h := C4_pointer_to_map_or_array_dropped sampleEnv pointerToMapField _ rfl rfl
  have hs := (h.2 (structDecl "T" ([fieldX] ++ pointerToMapField :: [taggedPointerField]))
    _ _ [fieldX] [taggedPointerField] rfl rfl rfl).1
    (by
      intro g hg
      simp only [List.singleton_append, List.mem_cons, List.mem_singleton,
        List.not_mem_nil, or_false] at hg
      rcases hg with rfl | rfl
      · simp [completes, eval_fieldX]
      · simp [completes, eval_taggedPointerField])
  refine ⟨rfl, h.1, ?_⟩
  simpa [classified, eval_fieldX, eval_taggedPointerField] using hs

/-- The amended C5 at `In struct { X int; M *map[string]int; P *int "json" }`. -/
theorem C5_witness :
    (∀ g ∈ [fieldX, pointerToMapField, taggedPointerField], completes sampleEnv g = true) ∧
    ParseStructField sampleEnv nestedField =
      .ok (some
        { Name := "In", Kind := "struct", Tag := "", Doc := none, ImportDetails := none,
          SubFields := [entryX, entryP], InternalType := 0, IsPointer := false }) := by
  have hall : ∀ g ∈ [fieldX, pointerToMapField, taggedPointerField],
      completes sampleEnv g = true :=
    fun g hg => completes_of_safe (safe_nestedField_fields g hg)
  have h := (C5_nested_struct_entry sampleEnv none
    (declared "In" (.Field (.mk none [bareIdent "In"]
      (some (.StructType (some [fieldX, pointerToMapField, taggedPointerField]))) none)))
    [] [fieldX, pointerToMapField, taggedPointerField] none hall).1
  have hsub : [fieldX, pointerToMapField, taggedPointerField].filterMap
      (classified sampleEnv) = [entryX, entryP] := by
    simp [classified, eval_fieldX, eval_pointerToMapField, eval_taggedPointerField]
  rw [hsub] at h
  exact ⟨hall, h⟩

/-- The amended C6 at `type T struct { X int; F func(); P *int "json" }`. -/
theorem C6_witness :
    ∃ s, ParseStruct sampleEnv (structDecl "T" mixedFields) = .ok [s] ∧ s.Name = "T" ∧
      s.InternalType = 4 :=
  (C6_zero_or_one_struct sampleEnv (structDecl "T" mixedFields) _ _ rfl rfl).1
    mixedFields rfl completes_mixedFields

/-- The amended C7 at `const A = 1, x`: both functions return. -/
theorem C7_witness :
    (∃ r, ParseStruct sampleEnv (valueDecl [litOne, .Ident resolvedX]) = .ok r) ∧
    (∃ r, ParseConstantsAndVariables sampleEnv (valueDecl [litOne, .Ident resolvedX]) =
      .ok r) := by
  have h := C7_resolved_identifier_returns sampleEnv (valueDecl [litOne, .Ident resolvedX])
    _ _ rfl rfl
  refine ⟨h.1 ?_, h.2.1 ?_⟩
  · intro fields hfields
    cases hfields
  · intro values hvalues v hv
    cases hvalues
    simp only [List.mem_cons, List.mem_singleton, List.not_mem_nil, or_false] at hv
    rcases hv with rfl | rfl <;> rfl

/-- The amended C8 at `In struct { X int; M *map[string]int; P *int "json" }`. -/
theorem C8_witness :
    Safe sampleEnv nestedField ∧ ∃ r, ParseStructField sampleEnv nestedField = .ok r := by
  have hsafe : Safe sampleEnv nestedField :=
    Safe.nested none _ [] _ none safe_nestedField_fields
  exact ⟨hsafe, (C8_safe_field_never_raises sampleEnv nestedField hsafe).1⟩

/-- C9 at `var A = 1, x, map[string]int{a: 1, b: 2}, []int{1, 2}`: four
initializers, four entries, in order. -/
theorem C9_witness :
    ParseConstantsAndVariables sampleEnv
        (valueDecl [litOne, .Ident resolvedX, mapLit, sliceLit]) =
      .ok [entryOne, entryIdentX, entryMap, entrySlice] :=
  ((C9_entries_in_initializer_order sampleEnv
      (valueDecl [litOne, .Ident resolvedX, mapLit, sliceLit]) _ _
      [litOne, .Ident resolvedX, mapLit, sliceLit] rfl rfl rfl).1
    [entryOne, entryIdentX, entryMap, entrySlice]
    (List.Forall₂.cons (Builds.literal _ _ rfl)
      (List.Forall₂.cons (Builds.identifier _ _ rfl)
        (List.Forall₂.cons (Builds.mapLiteral _ _ _ _ rfl)
          (List.Forall₂.cons (Builds.sliceLiteral _ _ _ "int" _ rfl rfl)
            List.Forall₂.nil))))).1

/-- C10 at `var A = 1, f(), 2`: the call gets no entry, the literals keep theirs. -/
theorem C10_witness :
    callExpr.isOtherInitializer = true ∧
    ParseConstantsAndVariables sampleEnv (valueDecl [litOne, callExpr, litTwo]) =
      .ok [entryOne, entryTwo] := by
  have h := ((C10_other_initializer_dropped sampleEnv
    (valueDecl ([litOne] ++ callExpr :: [litTwo])) callExpr rfl).2 _ _ [litOne] [litTwo]
    rfl rfl rfl).2
    (by
      intro w hw
      simp only [List.singleton_append, List.mem_cons, List.mem_singleton,
        List.not_mem_nil, or_false] at hw
      rcases hw with rfl | rfl <;> rfl)
  exact ⟨rfl, h⟩

/-! ## Map literals, `var P *int`, member ownership and struct docs -/

theorem keyValueTexts_of_all_keyValue (elts : List Expr)
    (hkv : ∀ e ∈ elts, e.isKeyValueExpr = true) :
    keyValueTexts elts = elts.map (fun e => (keyText e, valueText e)) := by
  induction elts with
  | nil => rfl
  | cons e rest ih =>
    have he := hkv e (List.mem_cons_self _ _)
    have hrest := ih (fun x hx => hkv x (List.mem_cons_of_mem _ hx))
    cases e <;> simp [Expr.isKeyValueExpr] at he
    simp [keyValueTexts, keyText, valueText, hrest]

/-- C11: `ParseConstantsAndVariables` hands a map composite literal's whole
element list, in order, to `CompositeLiteralMapParser` and appends what it
returns.  With the builder the spec describes, a literal of K `key: value`
elements yields one `ScannedType` whose value holds exactly K pairs, the i-th
pair being the texts of the i-th element's key and value; unique source keys give
unique keys in the value. -/
theorem C11_map_literal_pairs (E : Env) (d : Ident) (key value : Expr) (elts : List Expr) :
    ParseConstantsAndVariables.item E d (.CompositeLit (some (.MapType key value)) elts) =
      (match E.CompositeLiteralMapParser d elts
          (.CompositeLit (some (.MapType key value)) elts) with
        | .error p => .error p
        | .ok parsed => .ok (some parsed)) ∧
    (E.CompositeLiteralMapParser = specCompositeLiteralMapParser →
      (∀ e ∈ elts, e.isKeyValueExpr = true) →
      ∃ entry kvs,
        ParseConstantsAndVariables.item E d
            (.CompositeLit (some (.MapType key value)) elts) = .ok (some entry) ∧
        (∀ obj decl, d.Obj = some obj → obj.Decl = some decl →
          decl.fieldByNameValues = some [.CompositeLit (some (.MapType key value)) elts] →
          ParseConstantsAndVariables E d = .ok [entry]) ∧
        entry.Value = .pairs kvs ∧
        kvs.length = elts.length ∧
        kvs = elts.map (fun e => (keyText e, valueText e)) ∧
        ((elts.map keyText).Nodup → (kvs.map Prod.fst).Nodup)) := by
  refine ⟨rfl, ?_⟩
  intro hE hkv
  have hitem : ParseConstantsAndVariables.item E d
      (.CompositeLit (some (.MapType key value)) elts) =
      .ok (some { Name := d.Name, Kind := "map", Value := .pairs (keyValueTexts elts),
                  Doc := none, InternalType := 2 }) := by
    simp [ParseConstantsAndVariables.item, hE, specCompositeLiteralMapParser]
  refine ⟨_, keyValueTexts elts, hitem, ?_, rfl, ?_, ?_, ?_⟩
  · intro obj decl hObj hDecl hValues
    rw [ParseConstantsAndVariables_of_values E d obj decl _ hObj hDecl hValues]
    simp [ParseConstantsAndVariables.loop, hitem]
  · rw [keyValueTexts_of_all_keyValue elts hkv, List.length_map]
  · exact keyValueTexts_of_all_keyValue elts hkv
  · intro hnodup
    rw [keyValueTexts_of_all_keyValue elts hkv, List.map_map]
    exact hnodup

/-- C11 at `var A = map[string]int{a: 1, b: 2}`: two elements, two pairs. -/
theorem C11_witness :
    ParseConstantsAndVariables sampleEnv (valueDecl [mapLit]) = .ok [entryMap] ∧
    entryMap.Value = .pairs [("a", "1"), ("b", "2")] := by
  obtain ⟨entry, kvs, hitem, hall, _, _, _, _⟩ :=
    (C11_map_literal_pairs sampleEnv (valueDecl [mapLit]) (namedType "string")
      (namedType "int")
      [.KeyValueExpr (namedType "a") litOne, .KeyValueExpr (namedType "b") litTwo]).2 rfl
      (by
        intro e he
        simp only [List.mem_cons, List.mem_singleton, List.not_mem_nil, or_false] at he
        rcases he with rfl | rfl <;> rfl)
  have hentry : entry = entryMap := by
    have h2 : ParseConstantsAndVariables.item sampleEnv (valueDecl [mapLit])
        (.CompositeLit (some (.MapType (namedType "string") (namedType "int")))
          [.KeyValueExpr (namedType "a") litOne, .KeyValueExpr (namedType "b") litTwo]) =
        .ok (some entryMap) := rfl
    rw [h2] at hitem
    simp only [Except.ok.injEq, Option.some.injEq] at hitem
    exact hitem.symm
  rw [← hentry]
  exact ⟨hall _ _ rfl rfl rfl, by rw [hentry]; rfl⟩

/-- C12, as amended: for a variable declared with a pointer type and no
initializer, such as `var P *int`, both `ParseStruct` (the type is not a struct
type) and `ParseConstantsAndVariables` (the initializer list is empty) return the
empty result, so the extraction yields no entry; an entry with `IsPointer = true`
and `Kind` the pointee's name is what a tagged struct field `P *int` yields. -/
theorem C12_var_pointer_yields_no_entry (E : Env) (name objName : String)
    (doc : Option CommentGroup) (names : List Ident) (x : Expr) :
    ParseStruct E
        (.mk name (some (.mk objName (some (.ValueSpec doc names (some (.StarExpr x)) []))))) =
      .ok [] ∧
    ParseConstantsAndVariables E
        (.mk name (some (.mk objName (some (.ValueSpec doc names (some (.StarExpr x)) []))))) =
      .ok [] ∧
    ∀ (fdoc : Option CommentGroup) (fname : Ident) (fnames : List Ident) (value : Ident)
      (tag : BasicLit),
      ∃ e, ParseStructField E
          (.mk fdoc (fname :: fnames) (some (.StarExpr (.Ident value))) (some tag)) =
            .ok (some e) ∧
        e.IsPointer = true ∧ e.Kind = value.Name :=
  ⟨rfl, rfl, fun fdoc fname fnames value tag =>
    ⟨_, ParseStructField_pointer_tagged E fdoc fname fnames value tag, rfl, rfl⟩⟩

/-- C12 fails as stated: for `var P *int` both functions return the empty
result; together they yield no entry, not one. -/
theorem C12_counterexample :
    ParseStruct sampleEnv varPointerDecl = .ok [] ∧
    ParseConstantsAndVariables sampleEnv varPointerDecl = .ok [] ∧
    ¬ ∃ ss ts, ParseStruct sampleEnv varPointerDecl = .ok ss ∧
      ParseConstantsAndVariables sampleEnv varPointerDecl = .ok ts ∧
      ss.length + ts.length = 1 := by
  have h1 : ParseStruct sampleEnv varPointerDecl = .ok [] := rfl
  have h2 : ParseConstantsAndVariables sampleEnv varPointerDecl = .ok [] := rfl
  refine ⟨h1, h2, ?_⟩
  rintro ⟨ss, ts, hs, ht, hlen⟩
  rw [h1] at hs
  rw [h2] at ht
  cases hs
  cases ht
  simp at hlen

theorem ParseComplexStructField_entry_members (E : Env) (name : Ident)
    (e : ScannedStructField) (h : ParseComplexStructField E name = .ok (some e)) :
    e.ImportDetails = none ∧ e.SubFields = [] ∧ e.Name = name.Name ∧
      e.InternalType = E.SliceType ∧ e.IsPointer = false := by
  unfold ParseComplexStructField at h
  split at h
  · cases h
  · split at h
    · cases h
    · split at h
      · cases h
      · split at h
        · cases h
        · split at h
          · cases h
          · split at h
            · cases h
            · split at h
              · cases h
              · simp only [Except.ok.injEq, Option.some.injEq] at h
                subst h
                exact ⟨rfl, rfl, rfl, rfl, rfl⟩
          · cases h

theorem ParseNestedStruct_entry_members (E : Env) (field : Field)
    (e : ScannedStructField) (h : ParseNestedStruct E field = .ok (some e)) :
    e.ImportDetails = none ∧ e.Kind = "struct" ∧ e.IsPointer = false := by
  rw [ParseNestedStruct] at h
  repeat' split at h
  all_goals first
    | (cases h; done)
    | (cases h; exact ⟨rfl, rfl, rfl⟩)

/-- C15: an entry `ParseStructField` produces for a pointer field or for an
array/slice field has no `ImportDetails` and no `SubFields`; an entry it produces
for an anonymous nested struct field has no `ImportDetails`. -/
theorem C15_members_only_for_owning_shapes (E : Env) (f : Field) (e : ScannedStructField)
    (h : ParseStructField E f = .ok (some e)) :
    (∀ x, f.Typ = some (.StarExpr x) → e.ImportDetails = none ∧ e.SubFields = []) ∧
    (∀ len elt, f.Typ = some (.ArrayType len elt) →
      e.ImportDetails = none ∧ e.SubFields = []) ∧
    (∀ fields, f.Typ = some (.StructType fields) → e.ImportDetails = none) := by
  refine ⟨?_, ?_, ?_⟩
  · intro x hx
    rw [ParseStructField, hx] at h
    cases x with
    | Ident value =>
      simp only at h
      split at h
      · cases h
      · split at h
        · cases h
        · simp only [Except.ok.injEq, Option.some.injEq] at h
          subst h
          exact ⟨rfl, rfl⟩
    | _ => simp at h
  · intro len elt ht
    rw [ParseStructField, ht] at h
    simp only at h
    split at h
    · cases h
    · have := ParseComplexStructField_entry_members E _ e h
      exact ⟨this.1, this.2.1⟩
  · intro fields ht
    rw [ParseStructField, ht] at h
    exact (ParseNestedStruct_entry_members E f e h).1

/-- C15 at the field `P *int "json"` of the samples. -/
theorem C15_witness :
    ParseStructField sampleEnv taggedPointerField = .ok (some entryP) ∧
    entryP.ImportDetails = none ∧ entryP.SubFields = [] := by
  have h := (C15_members_only_for_owning_shapes sampleEnv taggedPointerField entryP
    eval_taggedPointerField).1 (namedType "int") rfl
  exact ⟨eval_taggedPointerField, h.1, h.2⟩

/-- C19: every `ScannedStruct` that `ParseStruct` returns has `Doc` nil, whatever
doc comment the declaration or its identifier carries; the doc text of a field
is on the field's entry (`ExtractComments` of the field's `Doc`). -/
theorem C19_struct_doc_is_nil (E : Env) (d : Ident) (ss : List ScannedStruct)
    (h : ParseStruct E d = .ok ss) :
    (∀ s ∈ ss, s.Doc = none) ∧
    (∀ (doc : Option CommentGroup) (name : Ident) (names : List Ident) (value : Ident)
        (tag : BasicLit) (e : ScannedStructField),
      ParseStructField E
          (.mk doc (name :: names) (some (.StarExpr (.Ident value))) (some tag)) =
        .ok (some e) → e.Doc = E.ExtractComments doc) ∧
    (∀ (doc : Option CommentGroup) (names : List Ident) (fields : Option (List Field))
        (tag : Option BasicLit) (e : ScannedStructField),
      ParseStructField E (.mk doc names (some (.StructType fields)) tag) = .ok (some e) →
        e.Doc = E.ExtractComments doc) := by
  refine ⟨?_, ?_, ?_⟩
  · intro s hs
    unfold ParseStruct at h
    split at h
    · cases h
    · split at h
      · cases h
      · split at h
        · cases h; cases hs
        · split at h
          · cases h
          · split at h
            · cases h
            · simp only [Except.ok.injEq] at h
              subst h
              simp only [List.mem_singleton] at hs
              subst hs
              rfl
        · cases h; cases hs
  · intro doc name names value tag e he
    rw [ParseStructField_pointer_tagged] at he
    simp only [Except.ok.injEq, Option.some.injEq] at he
    subst he
    rfl
  · intro doc names fields tag e he
    rw [ParseStructField] at he
    simp only [Field.Typ] at he
    rw [ParseNestedStruct] at he
    simp only [Field.Typ, Field.Names, Field.Doc] at he
    repeat' split at he
    all_goals first
      | (cases he; done)
      | (cases he; rfl)

/-- C19 at the documented `type T struct { X int }`. -/
theorem C19_witness :
    ParseStruct sampleEnv documentedStructDecl =
      .ok [{ Doc := none, Name := "T", Fields := [entryX], InternalType := 4 }] ∧
    ∀ s ∈ [({ Doc := none, Name := "T", Fields := [entryX], InternalType := 4 } :
        ScannedStruct)], s.Doc = none := by
  have hrun : ParseStruct sampleEnv documentedStructDecl =
      .ok [{ Doc := none, Name := "T", Fields := [entryX], InternalType := 4 }] := by
    rw [ParseStruct_of_struct sampleEnv documentedStructDecl _ _ [fieldX] rfl rfl rfl]
    simp [ParseStruct.loop, eval_fieldX]
    exact ⟨rfl, rfl⟩
  exact ⟨hrun, (C19_struct_doc_is_nil sampleEnv documentedStructDecl _ hrun).1⟩

/-! ## Termination -/

theorem walkLoop_eq_nested (E : Env)
    (step : Field → Option (Except Panic (Option ScannedStructField))) (fl : List Field) :
    ∀ acc, (∀ g ∈ fl, step g = some (ParseStructField E g)) →
      walkLoop step acc fl = some (ParseNestedStruct.loop E acc fl) := by
  induction fl with
  | nil => intro acc _; rw [ParseNestedStruct.loop]; rfl
  | cons f fs ih =>
    intro acc h
    have hf := h f (List.mem_cons_self _ _)
    have hfs : ∀ g ∈ fs, step g = some (ParseStructField E g) :=
      fun g hg => h g (List.mem_cons_of_mem _ hg)
    rw [ParseNestedStruct.loop, walkLoop, hf]
    cases hr : ParseStructField E f with
    | error p => rfl
    | ok r =>
      cases r with
      | none => exact ih acc hfs
      | some e => exact ih (acc ++ [e]) hfs

theorem walkLoop_eq_struct (E : Env)
    (step : Field → Option (Except Panic (Option ScannedStructField))) (fl : List Field) :
    ∀ acc, (∀ g ∈ fl, step g = some (ParseStructField E g)) →
      walkLoop step acc fl = some (ParseStruct.loop E acc fl) := by
  induction fl with
  | nil => intro acc _; rfl
  | cons f fs ih =>
    intro acc h
    have hf := h f (List.mem_cons_self _ _)
    have hfs : ∀ g ∈ fs, step g = some (ParseStructField E g) :=
      fun g hg => h g (List.mem_cons_of_mem _ hg)
    rw [ParseStruct.loop, walkLoop, hf]
    cases hr : ParseStructField E f with
    | error p => rfl
    | ok r =>
      cases r with
      | none => exact ih acc hfs
      | some e => exact ih (acc ++ [e]) hfs

theorem fuel_suffices (E : Env) :
    ∀ (n : Nat) (f : Field), sizeOf f ≤ n →
      ParseStructFieldFuel E n f = some (ParseStructField E f) := by
  intro n
  induction n with
  | zero =>
    intro f hn
    cases f with
    | mk doc names typ tag => simp only [Field.mk.sizeOf_spec] at hn; omega
  | succ n ih =>
    intro f hn
    cases f with
    | mk doc names typ tag =>
      rw [ParseStructField, ParseStructFieldFuel]
      cases typ with
      | none => rfl
      | some t =>
        cases t with
        | StructType fields =>
          simp only [Field.Typ]
          rw [ParseNestedStruct, ParseNestedStructWith]
          cases fields with
          | none => rfl
          | some list =>
            simp only [Field.Typ]
            have hstep : ∀ g ∈ list,
                ParseStructFieldFuel E n g = some (ParseStructField E g) := by
              intro g hg
              have hlt := sizeOf_lt_of_mem_nested doc names list tag g hg
              exact ih g (by omega)
            rw [walkLoop_eq_nested E _ list [] hstep]
            cases ParseNestedStruct.loop E [] list with
            | error p => rfl
            | ok xs =>
              cases names with
              | nil => rfl
              | cons name rest => rfl
        | StarExpr x =>
          simp only [Field.Typ, Field.Names, Field.Tag]
          cases x with
          | Ident value =>
            cases names with
            | nil => rfl
            | cons name rest => cases tag <;> rfl
          | _ => rfl
        | ArrayType len elt =>
          simp only [Field.Typ, Field.Names]
          cases names <;> rfl
        | _ => rfl

/-- C13: the walk terminates on every finite declaration tree.  Each recursive
call of `ParseStructField` is on a field of the nested field list, which is
strictly smaller than the field that holds it; and a recursion budget no larger
than the size of the tree suffices for `ParseStructField`, and for the field loop
of `ParseStruct`, to return the result of the embedding, which is total by
well-founded recursion on that size. -/
theorem C13_walk_terminates (E : Env) :
    (∀ (doc : Option CommentGroup) (names : List Ident) (list : List Field)
        (tag : Option BasicLit) (g : Field), g ∈ list →
      sizeOf g < sizeOf (Field.mk doc names (some (.StructType (some list))) tag)) ∧
    (∀ (n : Nat) (f : Field), sizeOf f ≤ n →
      ParseStructFieldFuel E n f = some (ParseStructField E f)) ∧
    (∀ (n : Nat) (fl : List Field) (acc : List ScannedStructField),
      (∀ g ∈ fl, sizeOf g ≤ n) →
      walkLoop (ParseStructFieldFuel E n) acc fl = some (ParseStruct.loop E acc fl)) :=
  ⟨sizeOf_lt_of_mem_nested, fuel_suffices E,
   fun n fl acc h =>
     walkLoop_eq_struct E _ fl acc (fun g hg => fuel_suffices E n g (h g hg))⟩

/-- C13 at `In struct { X int; M *map[string]int; P *int "json" }`: a budget of
two nested calls already gives the entry, and so does the size of the field. -/
theorem C13_witness :
    ParseStructFieldFuel sampleEnv 2 nestedField =
      some (.ok (some
        { Name := "In", Kind := "struct", Tag := "", Doc := none, ImportDetails := none,
          SubFields := [entryX, entryP], InternalType := 0, IsPointer := false })) ∧
    ParseStructFieldFuel sampleEnv (sizeOf nestedField) nestedField =
      some (ParseStructField sampleEnv nestedField) :=
  ⟨rfl, (C13_walk_terminates sampleEnv).2.1 (sizeOf nestedField) nestedField (Nat.le_refl _)⟩

/-! ## Array/slice fields, several names, nested tags -/

theorem ParseStructField_array (E : Env) (doc : Option CommentGroup) (name : Ident)
    (names : List Ident) (len : Option Expr) (elt : Expr) (tag : Option BasicLit) :
    ParseStructField E (.mk doc (name :: names) (some (.ArrayType len elt)) tag) =
      ParseComplexStructField E name := by
  rw [ParseStructField]; rfl

theorem ParseComplexStructField_untagged (E : Env) (name : Ident) (obj : Object) (g : Field)
    (l : Option Expr) (e : Expr) (kind : String)
    (hObj : name.Obj = some obj) (hDecl : obj.Decl = some (.Field g))
    (hTyp : g.Typ = some (.ArrayType l e)) (hTag : g.Tag = none)
    (hKind : E.GetSliceType (.ArrayType l e) = .ok kind) :
    ParseComplexStructField E name = .error .nilDereference := by
  simp [ParseComplexStructField, hObj, hDecl, Decl.fieldByNameTag, Decl.fieldByNameDoc,
    Decl.fieldByNameType, hTyp, hTag, hKind]

/-- C14, at the failing input: on the untagged field `S []string`, and on every
array/slice field whose first name resolves to an untagged array-typed field
declaration on which `GetSliceType` returns, `ParseStructField` panics reading
`tag.Value` through the nil tag of the declaration; no entry is built. -/
theorem C14_untagged_slice_field_panics :
    ParseStructField sampleEnv untaggedSliceField = .error .nilDereference ∧
    ∀ (E : Env) (doc : Option CommentGroup) (name : Ident) (names : List Ident)
      (len : Option Expr) (elt : Expr) (tag : Option BasicLit) (obj : Object) (g : Field)
      (l : Option Expr) (e : Expr) (kind : String),
      name.Obj = some obj → obj.Decl = some (.Field g) →
      g.Typ = some (.ArrayType l e) → g.Tag = none →
      E.GetSliceType (.ArrayType l e) = .ok kind →
      ParseStructField E (.mk doc (name :: names) (some (.ArrayType len elt)) tag) =
        .error .nilDereference := by
  constructor
  · rw [ParseStructField]; rfl
  · intro E doc name names len elt tag obj g l e kind hObj hDecl hTyp hTag hKind
    rw [ParseStructField_array]
    exact ParseComplexStructField_untagged E name obj g l e kind hObj hDecl hTyp hTag hKind

theorem ParseStructField_first_name_only (E : Env) (doc : Option CommentGroup)
    (name : Ident) (rest : List Ident) (typ : Expr) (tag : Option BasicLit)
    (ht : typ.isFirstNameShape = true) :
    ParseStructField E (.mk doc (name :: rest) (some typ) tag) =
      ParseStructField E (.mk doc [name] (some typ) tag) := by
  rw [ParseStructField, ParseStructField]
  cases typ with
  | StructType fields =>
    simp only [Field.Typ]
    rw [ParseNestedStruct, ParseNestedStruct]
    rfl
  | StarExpr x => rfl
  | ArrayType len elt => rfl
  | _ => simp [Expr.isFirstNameShape] at ht

theorem ParseStructField_entry_name (E : Env) (doc : Option CommentGroup)
    (name : Ident) (rest : List Ident) (typ : Expr) (tag : Option BasicLit)
    (ht : typ.isFirstNameShape = true) (e : ScannedStructField)
    (h : ParseStructField E (.mk doc (name :: rest) (some typ) tag) = .ok (some e)) :
    e.Name = name.Name := by
  rw [ParseStructField] at h
  cases typ with
  | StructType fields =>
    simp only [Field.Typ] at h
    rw [ParseNestedStruct] at h
    simp only [Field.Typ, Field.Names] at h
    repeat' split at h
    all_goals first
      | (cases h; done)
      | (cases h; rfl)
  | StarExpr x =>
    cases x with
    | Ident value =>
      simp only [Field.Typ, Field.Names, Field.Tag] at h
      cases tag with
      | none => cases h
      | some t => cases h; rfl
    | _ => simp [Expr.isFirstNameShape] at ht
  | ArrayType len elt =>
    simp only [Field.Typ, Field.Names] at h
    exact (ParseComplexStructField_entry_members E name e h).2.2.1
  | _ => simp [Expr.isFirstNameShape] at ht

/-- C17, as amended: for a field declaration of the pointer-to-named-type,
array/slice or nested-struct shape that lists the names `name :: rest`,
`ParseStructField` does what it does for the declaration with the single name
`name`; an entry it yields is one entry, named after `name`; it yields one for a
tagged pointer field, for an array/slice field whose first name resolves to a
tagged array-typed field declaration on which `GetSliceType` returns, and for a
nested struct field on whose fields the classifier returns.  A struct's `Fields`
therefore has at most one entry per field declaration, whatever the number of
declared names. -/
theorem C17_first_name_only (E : Env) (doc : Option CommentGroup) (name : Ident)
    (rest : List Ident) (typ : Expr) (tag : Option BasicLit)
    (ht : typ.isFirstNameShape = true) :
    ParseStructField E (.mk doc (name :: rest) (some typ) tag) =
      ParseStructField E (.mk doc [name] (some typ) tag) ∧
    (∀ e, ParseStructField E (.mk doc (name :: rest) (some typ) tag) = .ok (some e) →
      e.Name = name.Name) ∧
    (∀ value t, typ = .StarExpr (.Ident value) → tag = some t →
      ∃ e, ParseStructField E (.mk doc (name :: rest) (some typ) tag) = .ok (some e)) ∧
    (∀ len elt obj g l el t kind, typ = .ArrayType len elt →
      name.Obj = some obj → obj.Decl = some (.Field g) →
      g.Typ = some (.ArrayType l el) → g.Tag = some t →
      E.GetSliceType (.ArrayType l el) = .ok kind →
      ∃ e, ParseStructField E (.mk doc (name :: rest) (some typ) tag) = .ok (some e)) ∧
    (∀ list, typ = .StructType (some list) → (∀ g ∈ list, completes E g = true) →
      ∃ e, ParseStructField E (.mk doc (name :: rest) (some typ) tag) = .ok (some e)) ∧
    (∀ (d : Ident) (obj : Object) (decl : Decl) (fl : List Field) (ss : List ScannedStruct),
      d.Obj = some obj → obj.Decl = some decl →
      decl.fieldByNameType = some (some (.StructType (some fl))) →
      ParseStruct E d = .ok ss → ∀ s ∈ ss, s.Fields.length ≤ fl.length) := by
  refine ⟨ParseStructField_first_name_only E doc name rest typ tag ht,
    fun e he => ParseStructField_entry_name E doc name rest typ tag ht e he, ?_, ?_, ?_, ?_⟩
  · intro value t htyp htag
    subst htyp htag
    exact ⟨_, ParseStructField_pointer_tagged E doc name rest value t⟩
  · intro len elt obj g l el t kind htyp hObj hDecl hTyp hTag hKind
    subst htyp
    have hmodel :=
      ParseComplexStructField_model E name obj g l el t kind hObj hDecl hTyp hTag hKind
    exact ⟨_, by rw [ParseStructField_array]; exact hmodel⟩
  · intro list htyp hlist
    subst htyp
    exact ⟨_, ParseStructField_nested E doc name rest list tag hlist⟩
  · intro d obj decl fl ss hObj hDecl hTyp hss s hs
    rw [ParseStruct_of_struct E d obj decl fl hObj hDecl hTyp] at hss
    cases hl : ParseStruct.loop E [] fl with
    | error p => simp [hl] at hss
    | ok xs =>
      have hall := structLoop_completes E fl [] xs hl
      have hxs := structLoop_ok E fl [] hall
      rw [hl] at hxs
      simp only [hl, Except.ok.injEq] at hss
      subst hss
      simp only [List.mem_singleton] at hs
      subst hs
      simp only [Except.ok.injEq, List.nil_append] at hxs
      simp only [hxs]
      exact List.length_filterMap_le _ _

/-- C17 fails as stated: the declaration `P, Q struct { *B "json" }` yields no
entry; `ParseStructField` panics on the embedded pointer inside. -/
theorem C17_counterexample :
    twoNameNestedField.Names = [bareIdent "P", bareIdent "Q"] ∧
    ParseStructField sampleEnv twoNameNestedField = .error .indexOutOfRange ∧
    ¬ ∃ e, ParseStructField sampleEnv twoNameNestedField = .ok (some e) := by
  have h : ParseStructField sampleEnv twoNameNestedField = .error .indexOutOfRange := by
    rw [ParseStructField]
    simp only [twoNameNestedField, Field.Typ]
    rw [ParseNestedStruct]
    simp [Field.Typ, ParseNestedStruct.loop, eval_embeddedPointerField]
  refine ⟨rfl, h, ?_⟩
  rintro ⟨e, he⟩
  rw [h] at he
  cases he

/-- The amended C17 at `X, Y *int "json"` and at `A, B []string "json"`: one
entry each, named `X` and `A`. -/
theorem C17_witness :
    ParseStructField sampleEnv twoNamePointerField =
      .ok (some
        { Name := "X", Kind := "int", Tag := "json", Doc := none, ImportDetails := none,
          SubFields := [], InternalType := 1, IsPointer := true }) ∧
    (∀ e, ParseStructField sampleEnv twoNamePointerField = .ok (some e) → e.Name = "X") ∧
    (∃ e, ParseStructField sampleEnv twoNameSliceField = .ok (some e)) ∧
    (∀ e, ParseStructField sampleEnv twoNameSliceField = .ok (some e) → e.Name = "A") := by
  have h := C17_first_name_only sampleEnv none
    (declared "X" (.Field (.mk none [bareIdent "X", bareIdent "Y"]
        (some (.StarExpr (namedType "int"))) (some (tagLit "json")))))
    [declared "Y" (.Field (.mk none [bareIdent "X", bareIdent "Y"]
        (some (.StarExpr (namedType "int"))) (some (tagLit "json"))))]
    (.StarExpr (namedType "int")) (some (tagLit "json")) rfl
  have hs := C17_first_name_only sampleEnv none
    (declared "A" (.Field (.mk none [bareIdent "A", bareIdent "B"]
        (some (.ArrayType none (namedType "string"))) (some (tagLit "json")))))
    [bareIdent "B"] (.ArrayType none (namedType "string")) (some (tagLit "json")) rfl
  refine ⟨?_, h.2.1, ?_, hs.2.1⟩
  · rw [ParseStructField]; rfl
  · exact hs.2.2.2.1 none (namedType "string") _ _ none (namedType "string")
      (tagLit "json") "[]string" rfl rfl rfl rfl rfl rfl

theorem ParseNestedStruct_of_completes (E : Env) (doc : Option CommentGroup) (name : Ident)
    (names : List Ident) (list : List Field) (tag : Option BasicLit)
    (hlist : ∀ g ∈ list, completes E g = true) :
    ParseNestedStruct E (.mk doc (name :: names) (some (.StructType (some list))) tag) =
      .ok (some
        { Name := name.Name, Kind := "struct", Tag := tagText tag,
          Doc := E.ExtractComments doc, ImportDetails := none,
          SubFields := list.filterMap (classified E), InternalType := 0,
          IsPointer := false }) := by
  rw [ParseNestedStruct]
  simp only [Field.Typ, Field.Tag, Field.Names, Field.Doc]
  rw [nestedLoop_ok E list [] hlist]
  cases tag <;> simp [tagText]

/-- C18, as amended: for a nested struct field that has a name and on whose
nested fields the classifier returns, `ParseNestedStruct` returns an entry whose
`Tag` is the empty string when the field has no tag and the tag's text unchanged
when it has one. -/
theorem C18_nested_tag_text (E : Env) (doc : Option CommentGroup) (name : Ident)
    (names : List Ident) (list : List Field)
    (hlist : ∀ g ∈ list, completes E g = true) :
    (∃ e, ParseNestedStruct E
        (.mk doc (name :: names) (some (.StructType (some list))) none) = .ok (some e) ∧
      e.Tag = "") ∧
    (∀ t : BasicLit, ∃ e, ParseNestedStruct E
        (.mk doc (name :: names) (some (.StructType (some list))) (some t)) = .ok (some e) ∧
      e.Tag = t.Value) :=
  ⟨⟨_, ParseNestedStruct_of_completes E doc name names list none hlist, rfl⟩,
   fun t => ⟨_, ParseNestedStruct_of_completes E doc name names list (some t) hlist, rfl⟩⟩

theorem ParseNestedStruct_first_field_panics (E : Env) (doc : Option CommentGroup)
    (names : List Ident) (g : Field) (rest : List Field) (tag : Option BasicLit) (p : Panic)
    (hg : ParseStructField E g = .error p) :
    ParseNestedStruct E (.mk doc names (some (.StructType (some (g :: rest)))) tag) =
      .error p := by
  rw [ParseNestedStruct]
  simp only [Field.Typ]
  rw [ParseNestedStruct.loop, hg]

/-- C18 fails as stated: the nested struct field `In struct { *B "json" }` has no
tag, and `ParseNestedStruct` does not succeed on it; it panics on the embedded
pointer inside. -/
theorem C18_counterexample :
    nestedWithEmbeddedPointer.Tag = none ∧
    ParseNestedStruct sampleEnv nestedWithEmbeddedPointer = .error .indexOutOfRange ∧
    ¬ ∃ e, ParseNestedStruct sampleEnv nestedWithEmbeddedPointer = .ok (some e) := by
  have h : ParseNestedStruct sampleEnv nestedWithEmbeddedPointer =
      .error .indexOutOfRange :=
    ParseNestedStruct_first_field_panics sampleEnv none _ embeddedPointerField [] none _
      eval_embeddedPointerField
  refine ⟨rfl, h, ?_⟩
  rintro ⟨e, he⟩
  rw [h] at he
  cases he

/-- The amended C18 at `In struct { X int; M *map[string]int; P *int "json" }`,
which has no tag. -/
theorem C18_witness :
    ∃ e, ParseNestedStruct sampleEnv nestedField = .ok (some e) ∧ e.Tag = "" :=
  (C18_nested_tag_text sampleEnv none
    (declared "In" (.Field (.mk none [bareIdent "In"]
      (some (.StructType (some [fieldX, pointerToMapField, taggedPointerField]))) none)))
    [] [fieldX, pointerToMapField, taggedPointerField]
    (fun g hg => completes_of_safe (safe_nestedField_fields g hg))).1

/-! ## `WriteResultToFile` -/

/-- C16, as amended: `WriteResultToFile` calls `os.Mkdir` before writing exactly
when the package declaration has 3 segments, on the folder named after the second
segment under `./result`; the error `os.Mkdir` returns (an existing folder or any
other failure) is looked at by nobody, so it is neither reported nor does it stop
the write, which is attempted in every case from the file system `os.Mkdir`
leaves. -/
theorem C16_subfolder_for_exactly_three_segments {World : Type} (os : Os World)
    (result filename : String) (pkg : List String) (w : World) :
    (pkg.length = 3 →
      WriteResultToFile os result filename pkg w =
        WriteResultToFile.write os result filename
          (os.Mkdir ("." ++ os.PathSeparator ++ "result" ++ os.PathSeparator ++ pkg.getD 1 "")
            0o744 w).2) ∧
    (pkg.length ≠ 3 →
      WriteResultToFile os result filename pkg w =
        WriteResultToFile.write os result filename w) ∧
    (∀ os2 : Os World, os2.PathSeparator = os.PathSeparator →
      (∀ p m v, (os2.Mkdir p m v).2 = (os.Mkdir p m v).2) →
      os2.Create = os.Create → os2.WriteString = os.WriteString → os2.Close = os.Close →
      WriteResultToFile os2 result filename pkg w =
        WriteResultToFile os result filename pkg w) := by
  refine ⟨?_, ?_, ?_⟩
  · intro h
    simp [WriteResultToFile, correctSplitPackageLength, correctFolderPermissions, h]
  · intro h
    simp [WriteResultToFile, correctSplitPackageLength, h]
  · intro os2 hsep hmk hcr hwr hcl
    simp only [WriteResultToFile, WriteResultToFile.write, hsep, hmk, hcr, hwr, hcl]

/-- C16 fails as stated: with 4 segments no folder is created; and with 3
segments and the results root missing `os.Mkdir` fails with an error other than
`ErrExist`, nothing is printed about it, and the text is written all the same. -/
theorem C16_counterexample :
    (WriteResultToFile sampleOs "text" "out.ts" ["a", "b", "c", "d"] diskWithRoot).world.dirs =
      ["./result"] ∧
    sampleOs.Mkdir "./result/b" 0o744 emptyDisk =
      (some (.other "no such file or directory"), emptyDisk) ∧
    (WriteResultToFile sampleOs "text" "out.ts" ["a", "b", "c"] emptyDisk).printed = [] ∧
    (WriteResultToFile sampleOs "text" "out.ts" ["a", "b", "c"] emptyDisk).world.files =
      [("out.ts", "text")] := by
  refine ⟨?_, ?_, ?_, ?_⟩ <;> decide

/-- The amended C16 with 3 segments and the results root present: the folder
`./result/b` is created and the text written. -/
theorem C16_witness :
    WriteResultToFile sampleOs "text" "out.ts" ["a", "b", "c"] diskWithRoot =
      WriteResultToFile.write sampleOs "text" "out.ts"
        (sampleOs.Mkdir "./result/b" 0o744 diskWithRoot).2 ∧
    (WriteResultToFile sampleOs "text" "out.ts" ["a", "b", "c"] diskWithRoot).world =
      { dirs := ["./result", "./result/b"], files := [("out.ts", "text")] } := by
  refine ⟨?_, by decide⟩
  have h := (C16_subfolder_for_exactly_three_segments sampleOs "text" "out.ts"
    ["a", "b", "c"] diskWithRoot).1 rfl
  rw [h]
  rfl

/-! ## Structs with a field on which the classifier panics -/

/-- C2 fails as stated: in `type T struct { F func(); *B "json"; X int }` the
classifier returns the empty result for `F` and a model for `X`, but `ParseStruct`
panics on the embedded pointer between them: `X` is never processed and no
`ScannedStruct` holds the non-empty classifier results. -/
theorem C2_counterexample :
    ParseStructField sampleEnv funcField = .ok none ∧
    [funcField, embeddedPointerField, fieldX].filterMap (classified sampleEnv) = [entryX] ∧
    ParseStruct sampleEnv (structDecl "T" [funcField, embeddedPointerField, fieldX]) =
      .error .indexOutOfRange ∧
    ¬ ∃ s, ParseStruct sampleEnv (structDecl "T" [funcField, embeddedPointerField, fieldX]) =
        .ok [s] ∧
      s.Fields = [funcField, embeddedPointerField, fieldX].filterMap (classified sampleEnv) := by
  have h : ParseStruct sampleEnv (structDecl "T" [funcField, embeddedPointerField, fieldX]) =
      .error .indexOutOfRange := by
    rw [ParseStruct_of_struct sampleEnv
      (structDecl "T" [funcField, embeddedPointerField, fieldX]) _ _
      [funcField, embeddedPointerField, fieldX] rfl rfl rfl]
    simp [ParseStruct.loop, eval_funcField, eval_embeddedPointerField]
  refine ⟨eval_funcField, ?_, h, ?_⟩
  · simp [classified, eval_funcField, eval_embeddedPointerField, eval_fieldX]
  · rintro ⟨s, hs, _⟩
    rw [h] at hs
    cases hs

/-- C4 fails as stated: `type T struct { X int; M *map[string]int; *B "json" }`
contains a pointer-to-map field, which gets no entry, but `ParseStruct` does not
produce the entry of the sibling `X`; it panics on the embedded pointer. -/
theorem C4_counterexample :
    ParseStructField sampleEnv pointerToMapField = .ok none ∧
    classified sampleEnv fieldX = some entryX ∧
    ParseStruct sampleEnv
        (structDecl "T" [fieldX, pointerToMapField, embeddedPointerField]) =
      .error .indexOutOfRange ∧
    ¬ ∃ ss, ParseStruct sampleEnv
        (structDecl "T" [fieldX, pointerToMapField, embeddedPointerField]) = .ok ss := by
  have h : ParseStruct sampleEnv
      (structDecl "T" [fieldX, pointerToMapField, embeddedPointerField]) =
      .error .indexOutOfRange := by
    rw [ParseStruct_of_struct sampleEnv
      (structDecl "T" [fieldX, pointerToMapField, embeddedPointerField]) _ _
      [fieldX, pointerToMapField, embeddedPointerField] rfl rfl rfl]
    simp [ParseStruct.loop, eval_fieldX, eval_pointerToMapField, eval_embeddedPointerField]
  refine ⟨eval_pointerToMapField, classified_of_ok eval_fieldX, h, ?_⟩
  rintro ⟨ss, hss⟩
  rw [h] at hss
  cases hss

end Godmt
